import Mathlib

/-!
Verification development for the `ankify` repository.

The repository converts structured Markdown notes into flashcards and
synchronizes them with a locally running Anki instance over the
AnkiConnect HTTP API.  This file gives a shallow embedding of the two
cores:

* the Markdown card-block parser and identity reconciliation of
  `src/ankify/main.py` (lines are modelled as `List Char`, one list entry
  per line of the file after splitting on newline, exactly as the Python
  code does `content.split('\n')`);
* the synchronization client of `src/ankify/anki.py` (`AnkiConnect`,
  `Card`), with the external AnkiConnect HTTP API modelled as an
  explicit remote state, per the interface description of the spec.

Python `re` based line classifiers are translated into executable list
functions; Python truthiness tests on optional strings are modelled by
`otruthy`.  File input/output, logging and the HTTP transport are
effects outside the embedded fragment; the functions below operate on
the in-memory text exactly as the source does between those effects.
-/

namespace Ankify

/-- A single line of a Markdown file (the Python code works on
`content.split('\n')`, so a line never contains a newline). -/
abbrev Line := List Char

/-- Model of Python's `\s` character class used by the regexes in
`main.py` (`re.match` on single lines; lines contain no newline). -/
def isWs (c : Char) : Bool := c.isWhitespace

/-- The backtick character (code point 96), the fence delimiter. -/
def btk : Char := '\x60'

/-- Python truthiness of an optional string: `None` and `""` are falsy,
any non-empty string is truthy.  `main.py` tests `if heading2:`,
`if anki_id:`, `if current_question and current_answer:` etc. on values
of type `Optional[str]`. -/
def otruthy : Option (List Char) → Bool
  | none => false
  | some s => !s.isEmpty

/-- `extract_heading2` (main.py, line 122): `re.match(r'^##\s+(.*?)$', line)`,
returning the heading text after the run of whitespace.  A third `#` is
not whitespace, so `###`-lines do not match. -/
def extract_heading2 : Line → Option (List Char)
  | '#' :: '#' :: rest =>
    match rest with
    | c :: _ => if isWs c then some (rest.dropWhile isWs) else none
    | [] => none
  | _ => none

/-- `extract_heading3` (main.py, line 127): `re.match(r'^###\s+(.*?)$', line)`. -/
def extract_heading3 : Line → Option (List Char)
  | '#' :: '#' :: '#' :: rest =>
    match rest with
    | c :: _ => if isWs c then some (rest.dropWhile isWs) else none
    | [] => none
  | _ => none

/-- `is_question_heading` (main.py, line 132):
`re.match(r'^\s*####\s+Question\s*$', line)`. -/
def is_question_heading (l : Line) : Bool :=
  match l.dropWhile isWs with
  | '#' :: '#' :: '#' :: '#' :: rest =>
    match rest with
    | c :: _ =>
      if isWs c then
        let s := rest.dropWhile isWs
        "Question".toList.isPrefixOf s && (s.drop 8).all isWs
      else false
    | [] => false
  | _ => false

/-- `is_answer_heading` (main.py, line 136):
`re.match(r'^\s*####\s+Answer\s*$', line)`. -/
def is_answer_heading (l : Line) : Bool :=
  match l.dropWhile isWs with
  | '#' :: '#' :: '#' :: '#' :: rest =>
    match rest with
    | c :: _ =>
      if isWs c then
        let s := rest.dropWhile isWs
        "Answer".toList.isPrefixOf s && (s.drop 6).all isWs
      else false
    | [] => false
  | _ => false

/-- `get_fence_marker` (main.py, line 140):
`re.match(r'^(\s*`{3,})\s*(.*)$', line)`, group 1 — the leading
whitespace together with the maximal run of at least three backticks. -/
def get_fence_marker (l : Line) : Option Line :=
  let w := l.takeWhile isWs
  let bt := (l.dropWhile isWs).takeWhile (fun c => c = btk)
  if 3 ≤ bt.length then some (w ++ bt) else none

/-- `extract_anki_id` (main.py, line 145):
`re.match(r'^<!--\s*anki-id:\s*(\d+)\s*-->$', line)`, group 1 — the
non-empty digit run. -/
def extract_anki_id (l : Line) : Option (List Char) :=
  if "<!--".toList.isPrefixOf l then
    let s1 := (l.drop 4).dropWhile isWs
    if "anki-id:".toList.isPrefixOf s1 then
      let s2 := (s1.drop 8).dropWhile isWs
      let d := s2.takeWhile Char.isDigit
      if d.isEmpty then none
      else if (s2.drop d.length).dropWhile isWs = "-->".toList then some d
      else none
    else none
  else none

/-- `is_heading` (main.py, line 150): `line.startswith('#')`. -/
def is_heading (l : Line) : Bool :=
  match l with
  | '#' :: _ => true
  | _ => false

/-- `find_anki_id_after_heading3` (main.py, line 154).  The Python
function scans `lines` forward from `start_index`; here it receives the
suffix of the line list starting at that index.  It stops at the first
heading of any level, and otherwise returns the first anki id found. -/
def find_anki_id_after_heading3 : List Line → Option (List Char)
  | [] => none
  | l :: rest =>
    if is_heading l then none
    else
      match extract_anki_id l with
      | some v => some v
      | none => find_anki_id_after_heading3 rest

/-- Python `str.strip()` on text made of the file's characters. -/
def strip (l : List Char) : List Char :=
  ((l.dropWhile isWs).reverse.dropWhile isWs).reverse

/-- The accumulation `content += lines[i] + "\n"` of
`extract_code_block_content`, as a function of the collected lines. -/
def joinNL : List Line → List Char
  | [] => []
  | l :: rest => l ++ '\n' :: joinNL rest

/-- Phase one of `extract_code_block_content` (main.py, lines 180-192):
scan forward, remembering the last anki id seen, until the opening
fence is found (which is skipped) or the lines run out.  Returns the
remaining suffix, the fence marker if one was found, and the id. -/
def ecbcPre : List Line → Option (List Char) →
    List Line × Option Line × Option (List Char)
  | [], ankiId => ([], none, ankiId)
  | l :: rest, ankiId =>
    match extract_anki_id l with
    | some v => ecbcPre rest (some v)
    | none =>
      match get_fence_marker l with
      | some m => (rest, some m, ankiId)
      | none => ecbcPre rest ankiId

/-- Phase two of `extract_code_block_content` (main.py, lines 197-204):
collect content lines until a line starting with the opening fence
marker (`lines[i].startswith(fence_marker)`), which is skipped.
Returns the remaining suffix and the collected content lines. -/
def ecbcCollect (m : Line) : List Line → List Line × List Line
  | [] => ([], [])
  | l :: rest =>
    if m.isPrefixOf l then (rest, [])
    else
      let r := ecbcCollect m rest
      (r.1, l :: r.2)

/-- `extract_code_block_content` (main.py, line 173).  The Python
function takes `(lines, start_index)` and returns a new index; here it
takes the suffix of the lines starting at that index and returns the
remaining suffix.  The content is `content.strip() if content else None`:
`none` when no content line was collected (including when no fence was
found), otherwise the stripped concatenation — which may be empty. -/
def extract_code_block_content (ls : List Line) :
    List Line × Option (List Char) × Option (List Char) :=
  let p := ecbcPre ls none
  match p.2.1 with
  | none => (p.1, none, p.2.2)
  | some m =>
    let c := ecbcCollect m p.1
    (c.1, if c.2.isEmpty then none else some (strip (joinNL c.2)), p.2.2)

/-- The card dictionary built by `create_card` (main.py, line 208).
`question` and `answer` hold the raw block text (`raw_question`,
`raw_answer`); the HTML renderings produced by `markdown_to_html` are a
pure text transform through the external `markdown2` library and carry
no information used by any claim, so they are not duplicated here.
`heading3_text` and `anki_id` are present only when truthy, modelled as
`Option` values that are `none` exactly when the key is absent. -/
structure PCard where
  question : List Char
  answer : List Char
  heading2 : List Char
  heading3_text : Option (List Char)
  anki_id : Option (List Char)
deriving DecidableEq, Repr

/-- The `while i < len(lines)` scanning loop of `parse_markdown_file`
(main.py, lines 252-310).  The loop index `i` strictly increases at
every iteration, so the loop makes at most `lines.length` iterations;
`fuel` is that iteration budget (callers pass `lines.length + 1`).
State arguments mirror the Python locals: `h2` is `current_heading2`,
`h3` is `current_heading3_text`, `h3tail` is the suffix of the file
after `current_heading3_idx` (`none` encodes the initial `-1`), `q` is
`current_question` and `qid` is `current_question_anki_id`.  The
returned list holds the cards appended from this point on. -/
def parseLoop (fsc : Bool) : Nat → List Char → Option (List Char) →
    Option (List Line) → Option (List Char) → Option (List Char) →
    List Line → List PCard
  | 0, _, _, _, _, _, _ => []
  | _ + 1, _, _, _, _, _, [] => []
  | fuel + 1, h2, h3, h3tail, q, qid, l :: rest =>
    if otruthy (extract_heading2 l) then
      parseLoop fsc fuel ((extract_heading2 l).getD []) h3 h3tail q qid rest
    else if otruthy (extract_heading3 l) then
      parseLoop fsc fuel h2 (extract_heading3 l) (some rest) q qid rest
    else if is_question_heading l then
      let r := extract_code_block_content rest
      if fsc then parseLoop fsc fuel h2 h3 h3tail r.2.1 qid r.1
      else parseLoop fsc fuel h2 h3 h3tail r.2.1 r.2.2 r.1
    else if is_answer_heading l && otruthy q then
      let r := extract_code_block_content rest
      if otruthy q && otruthy r.2.1 then
        let idUse : Option (List Char) :=
          if fsc then none
          else if otruthy qid then qid
          else h3tail.bind find_anki_id_after_heading3
        { question := q.getD [], answer := r.2.1.getD [], heading2 := h2,
          heading3_text := if otruthy h3 then h3 else none,
          anki_id := if otruthy idUse then idUse else none } ::
          parseLoop fsc fuel h2 h3 h3tail none none r.1
      else parseLoop fsc fuel h2 h3 h3tail q qid r.1
    else parseLoop fsc fuel h2 h3 h3tail q qid rest

/-- The card list produced by `parse_markdown_file` (main.py, line 232)
from the already-split lines of the content with front matter removed.
Reading the file, extracting YAML front matter and the title are
effects and external-library calls handled separately (see
`extract_title_from_front_matter`). -/
def parse_lines (fsc : Bool) (lines : List Line) : List PCard :=
  parseLoop fsc (lines.length + 1) "General".toList none none none none lines

/-- Python dictionary access `d.get(k)` on a mapping modelled as an
association list: the value at the first matching key. -/
def alookup {α β : Type} [DecidableEq α] (k : α) : List (α × β) → Option β
  | [] => none
  | p :: r => if p.1 = k then some p.2 else alookup k r

/-- `extract_title_from_front_matter` (main.py, line 114):
`front_matter.get('title', 'Untitled')`, with the YAML mapping of the
front matter modelled as an association list ( `[]` when the file has
no front matter, since `extract_front_matter` then returns `{}`). -/
def extract_title_from_front_matter (fm : List (List Char × List Char)) : List Char :=
  ((alookup "title".toList fm).getD "Untitled".toList)

/-- The deck name computed by `add_or_update_note_in_anki` (main.py,
line 529): `f"{deck_name}::{title}::{card['heading2']}"`. -/
def full_deck_name (deck_name title heading2 : List Char) : List Char :=
  deck_name ++ "::".toList ++ title ++ "::".toList ++ heading2

/-- `find_heading3_position` (main.py, line 478): index of the first
line whose heading-3 text equals `heading3_text` (Python compares
`extract_heading3(line) == heading3_text`). -/
def find_heading3_position (t : List Char) : List Line → Option Nat
  | [] => none
  | l :: rest =>
    if extract_heading3 l = some t then some 0
    else (find_heading3_position t rest).map (· + 1)

/-- The duplicate-avoidance scan of `insert_id_in_markdown` (main.py,
lines 503-509): walk forward from the line after the heading while the
line is not a question heading, a (truthy) heading 3 or a (truthy)
heading 2, and report whether an anki id line was seen. -/
def section_has_anki_id : List Line → Bool
  | [] => false
  | l :: rest =>
    if is_question_heading l || otruthy (extract_heading3 l) || otruthy (extract_heading2 l) then
      false
    else if (extract_anki_id l).isSome then true
    else section_has_anki_id rest

/-- The id marker line `f"<!-- anki-id: {id_value} -->"` written by
`insert_id_in_markdown` (main.py, line 511). -/
def markerLine (v : List Char) : Line :=
  "<!-- anki-id: ".toList ++ v ++ " -->".toList

/-- `insert_id_in_markdown` (main.py, line 489), as a function from the
file's lines to the updated lines: find the first line carrying the
heading-3 text; if there is none, warn and leave the file unchanged; if
an anki id already exists between the heading and the next
question/heading-3/heading-2 line, skip; otherwise insert the marker
directly after the heading line. -/
def insert_id_in_markdown (t v : List Char) (lines : List Line) : List Line :=
  match find_heading3_position t lines with
  | none => lines
  | some i =>
    if section_has_anki_id (lines.drop (i + 1)) then lines
    else lines.insertIdx (i + 1) (markerLine v)

/-- The heading text `card.get('heading3_text', 'Unknown heading')`
used by `process_cards` (main.py, line 638) when writing ids back. -/
def h3name (c : PCard) : List Char :=
  c.heading3_text.getD "Unknown heading".toList

/-- The file mutations performed by one `process_cards` run (main.py,
lines 636-655) with no remote failures: every card that already carries
an `anki_id` has it ensured in the file (line 643), and every card
without one receives the note id returned by Anki for it (line 655),
modelled by the id supply `supply` (Anki note ids are decimal integers,
inserted via `str(new_id)`).  `k` counts the ids consumed so far. -/
def reconcile_go (supply : Nat → List Char) : List PCard → Nat → List Line → List Line
  | [], _, lines => lines
  | c :: cs, k, lines =>
    match c.anki_id with
    | some v => reconcile_go supply cs k (insert_id_in_markdown (h3name c) v lines)
    | none => reconcile_go supply cs (k + 1) (insert_id_in_markdown (h3name c) (supply k) lines)

/-- One parse-and-reconcile pass over a file: parse the lines (with
existing ids honoured, `from_scratch = False`) and write an id marker
for every card, as `process_file`/`process_cards` do. -/
def reconcile (supply : Nat → List Char) (lines : List Line) : List Line :=
  reconcile_go supply (parse_lines false lines) 0 lines

/-! ## Synchronization client (`src/ankify/anki.py`) -/

/-- A JSON value as far as the AnkiConnect response handling inspects
it: `_validate_response` only distinguishes `null` from everything
else, and `send_request` returns the `result` value opaquely (atomic
values suffice for every statement below). -/
inductive JVal where
  | null : JVal
  | num : Nat → JVal
  | str : List Char → JVal
deriving DecidableEq, Repr

/-- The failure values raised by `AnkiConnect`.  Python raises
`Exception` with formatted messages; each distinct message shape of
`anki.py` is one constructor, and the re-raising with added context
(`raise Exception(f"...: {str(e)}")`) is `wrapped`. -/
inductive SyncError where
  /-- `_make_request`: connection refused / timeout / disconnect
  (lines 217-224) — the transient connectivity failures. -/
  | connectFail : SyncError
  /-- `_make_request`: non-200 HTTP status (line 214). -/
  | httpStatus : Nat → SyncError
  /-- `_validate_response`: `len(response_data) != 2` (line 227). -/
  | badFieldCount : SyncError
  /-- `_validate_response`: `'error' not in response_data` (line 229). -/
  | missingErrorField : SyncError
  /-- `_validate_response`: `'result' not in response_data` (line 231). -/
  | missingResultField : SyncError
  /-- `_validate_response`: non-null `error` field re-raised (line 234). -/
  | remoteError : JVal → SyncError
  /-- `get_anki_id_by_card_id`: `Found multiple notes ({n}) with id
  field: {card_id}` (line 285). -/
  | multipleNotes : Nat → List Char → SyncError
  /-- context re-wrapping, e.g. `Error finding note by card_id ...` or
  `Failed to create or update card: ...`. -/
  | wrapped : List Char → SyncError → SyncError
deriving DecidableEq, Repr

/-- Protocol violations in the sense of the spec: malformed response
shape or a non-null `error` field, i.e. exactly the errors raised by
`_validate_response`. -/
def SyncError.isProtocolViolation : SyncError → Bool
  | .badFieldCount => true
  | .missingErrorField => true
  | .missingResultField => true
  | .remoteError _ => true
  | _ => false

/-- A decoded JSON response body: the mapping from field names to
values (Python dict; `len`, `in` and indexing are what
`_validate_response` uses). -/
abbrev ResponseData := List (String × JVal)

/-- `AnkiConnect._validate_response` (anki.py, lines 226-234) followed
by the successful `return response_data['result']` of `send_request`:
the response must have exactly two fields, both `error` and `result`
must be present, and `error` must be null; otherwise the corresponding
exception is raised. -/
def validate_response (rd : ResponseData) : Except SyncError JVal :=
  if rd.length ≠ 2 then .error .badFieldCount
  else if (alookup "error" rd).isNone then .error .missingErrorField
  else if (alookup "result" rd).isNone then .error .missingResultField
  else if (alookup "error" rd) ≠ some JVal.null then
    .error (.remoteError ((alookup "error" rd).getD JVal.null))
  else .ok ((alookup "result" rd).getD JVal.null)

/-- The network outcome of one attempt's `_make_request` plus JSON
decoding: either an exception from the transport layer, or a decoded
response body. -/
inductive RawOutcome where
  | fail : SyncError → RawOutcome
  | resp : ResponseData → RawOutcome
deriving DecidableEq, Repr

/-- The body of one iteration of `send_request`'s retry loop (anki.py,
lines 176-190): make the request, decode, validate, extract `result`.
`raw n` is the transport outcome of attempt `n`. -/
def attempt_once (raw : Nat → RawOutcome) (n : Nat) : Except SyncError JVal :=
  match raw n with
  | .fail e => .error e
  | .resp rd => validate_response rd

/-- The retry loop of `AnkiConnect.send_request` (anki.py, lines
171-199): `for attempt in range(retries)`, catching every exception,
sleeping `retry_delay * (attempt + 1)` when `attempt < retries - 1`,
and re-raising the last exception after the loop (returning `None`,
i.e. `JVal.null`, if the loop body never ran).  Returns the result, the
number of attempts actually made, and the list of sleep durations.
`remaining` is the number of loop iterations left (structurally equal
to `retries - attempt`). -/
def send_request_go (raw : Nat → RawOutcome) (delay retries : Nat) :
    Nat → Nat → Option SyncError → Except SyncError JVal × Nat × List Nat
  | 0, attempt, last =>
    (match last with
     | some e => .error e
     | none => .ok JVal.null, attempt, [])
  | remaining + 1, attempt, _last =>
    match attempt_once raw attempt with
    | .ok v => (.ok v, attempt + 1, [])
    | .error e =>
      let r := send_request_go raw delay retries remaining (attempt + 1) (some e)
      (r.1, r.2.1,
        (if attempt < retries - 1 then [delay * (attempt + 1)] else []) ++ r.2.2)

/-- `AnkiConnect.send_request` with an explicit retry count (the Python
default is `max_retries = 3`, `retry_delay = 1`; see
`AnkiConnect.__init__`, lines 158-159). -/
def send_request (raw : Nat → RawOutcome) (delay retries : Nat) :
    Except SyncError JVal × Nat × List Nat :=
  send_request_go raw delay retries retries 0 none

/-- `self.max_retries = 3` (anki.py, line 158). -/
def max_retries : Nat := 3

/-- `self.retry_delay = 1` second (anki.py, line 159). -/
def retry_delay : Nat := 1

/-- `Card` (anki.py, line 442): the pydantic model synced through
`create_or_update_card`. -/
structure Card where
  id : List Char
  deck_name : List Char
  obsidian_url : Option (List Char)
  question : List Char
  answer : List Char
  tags : List (List Char)
deriving DecidableEq, Repr

/-- The note payload built by `Card.to_anki_create` (anki.py, line
493): field-name/value pairs for the `addNote` action.  `render` is
`markdown_to_html`, the external Markdown-to-HTML text transform. -/
structure AddNoteParams where
  deckName : List Char
  modelName : List Char
  fields : List (List Char × List Char)
  tags : List (List Char)
deriving DecidableEq, Repr

/-- The note payload built by `Card.to_anki_update` (anki.py, line
517) for the `updateNote` action. -/
structure UpdateNoteParams where
  id : Nat
  fields : List (List Char × List Char)
  tags : List (List Char)
deriving DecidableEq, Repr

/-- `Card.to_anki_create` (anki.py, lines 493-515). -/
def Card.to_anki_create (render : List Char → List Char) (c : Card) : AddNoteParams :=
  { deckName := c.deck_name
    modelName := "ObsidianCard".toList
    fields := [("id".toList, c.id),
               ("question".toList, render c.question),
               ("answer".toList, render c.answer),
               ("comments".toList, []),
               ("obsidian_url".toList, c.obsidian_url.getD [])]
    tags := c.tags }

/-- `Card.to_anki_update` (anki.py, lines 517-532): only `question` and
`answer` appear among the written fields; the docstring notes it
`Ignores the comments field during update`. -/
def Card.to_anki_update (render : List Char → List Char) (c : Card) (anki_id : Nat) :
    UpdateNoteParams :=
  { id := anki_id
    fields := [("question".toList, render c.question),
               ("answer".toList, render c.answer)]
    tags := c.tags }

/-- Modelled from the spec: a note stored by the remote flashcard
application, with the `ObsidianCard` fields
`[id, question, answer, comments, obsidian_url]` (anki.py,
`Card.template`, line 481) and its Anki-assigned note id. -/
structure RemoteNote where
  noteId : Nat
  idField : List Char
  question : List Char
  answer : List Char
  comments : List Char
  obsidian_url : List Char
  tags : List (List Char)
deriving DecidableEq, Repr

/-- Modelled from the spec: the remote flashcard application's state —
its notes, the next fresh note id, and its deck names.  The spec treats
the HTTP API as a black box (`createDeck`, `findNotes`, `addNote`,
`updateNote`); this is its state-machine semantics. -/
structure Remote where
  notes : List RemoteNote
  nextNoteId : Nat
  decks : List (List Char)
deriving DecidableEq, Repr

/-- The requests issued to the remote API, recorded for counting. -/
inductive Request where
  | deckNames : Request
  | createDeck : List Char → Request
  | findNotes : List Char → Request
  | addNote : List Char → Request
  | updateNote : Nat → Request
deriving DecidableEq, Repr

/-- Modelled from the spec: `findNotes` with the query `id:<card_id>`
(anki.py, line 277) returns the ids of the notes whose hidden `id`
field equals the card id — a content-addressed lookup independent of
the visible note text. -/
def remote_find_notes_by_id (cid : List Char) (st : Remote) : List Nat :=
  (st.notes.filter (fun n => n.idField = cid)).map (fun n => n.noteId)

/-- Modelled from the spec: `addNote` stores a new note built from the
request's fields and returns the fresh note id. -/
def remote_add_note (p : AddNoteParams) (st : Remote) : Remote × Nat :=
  ({ st with
      notes := st.notes ++
        [{ noteId := st.nextNoteId
           idField := (alookup "id".toList p.fields).getD []
           question := (alookup "question".toList p.fields).getD []
           answer := (alookup "answer".toList p.fields).getD []
           comments := (alookup "comments".toList p.fields).getD []
           obsidian_url := (alookup "obsidian_url".toList p.fields).getD []
           tags := p.tags }]
      nextNoteId := st.nextNoteId + 1 },
   st.nextNoteId)

/-- Modelled from the spec: `updateNote` overwrites, on the note with
the given id, exactly the fields present in the request (absent fields
keep their stored value) and replaces the tags. -/
def remote_update_note (p : UpdateNoteParams) (st : Remote) : Remote :=
  { st with
    notes := st.notes.map (fun n =>
      if n.noteId = p.id then
        { n with
          idField := (alookup "id".toList p.fields).getD n.idField
          question := (alookup "question".toList p.fields).getD n.question
          answer := (alookup "answer".toList p.fields).getD n.answer
          comments := (alookup "comments".toList p.fields).getD n.comments
          obsidian_url := (alookup "obsidian_url".toList p.fields).getD n.obsidian_url
          tags := p.tags }
      else n) }

/-- `AnkiConnect.get_anki_id_by_card_id` (anki.py, lines 262-290): find
the notes carrying the card id in their `id` field; none found gives
`None`, more than one raises `Found multiple notes ...` (re-wrapped by
the enclosing `try` with `Error finding note by card_id ...`), and
exactly one is returned.  Also records the issued request. -/
def get_anki_id_by_card_id (cid : List Char) (st : Remote) :
    Except SyncError (Option Nat) × List Request :=
  let note_ids := remote_find_notes_by_id cid st
  let reqs := [Request.findNotes cid]
  if note_ids.isEmpty then (.ok none, reqs)
  else if 1 < note_ids.length then
    (.error (.wrapped "Error finding note by card_id".toList
               (.multipleNotes note_ids.length cid)), reqs)
  else (.ok note_ids.head?, reqs)

/-- `AnkiConnect.ensure_deck_created` (anki.py, lines 292-325): on an
empty cache, fetch the remote deck names (the cache is only replaced
when the fetched list is truthy); then create the deck only when it is
not in the cache, adding it to both the cache and the remote. -/
def ensure_deck_created (deck : List Char) (cache : List (List Char)) (st : Remote) :
    List (List Char) × Remote × List Request :=
  let fetched :=
    if cache.length ≤ 0 then
      (if st.decks.isEmpty then cache else st.decks, [Request.deckNames])
    else (cache, ([] : List Request))
  let cache1 := fetched.1
  if deck ∈ cache1 then (cache1, st, fetched.2)
  else (cache1 ++ [deck], { st with decks := st.decks ++ [deck] },
        fetched.2 ++ [Request.createDeck deck])

deriving instance DecidableEq for Except

/-- Outcome of one `create_or_update_card` call: the returned note id
(or the raised error), the updated deck cache, the updated remote
state, and every request that was issued. -/
structure SyncResult where
  result : Except SyncError Nat
  cache : List (List Char)
  remote : Remote
  requests : List Request
deriving DecidableEq, Repr

/-- `AnkiConnect.create_or_update_card` (anki.py, lines 327-361):
ensure the deck exists, look the card's id up remotely, then either
`addNote` (no note found) or `updateNote` (exactly one found); a lookup
failure is re-wrapped with `Failed to create or update card` and
nothing further is sent.  The retry/transport layer (`send_request`) is
modelled separately; here every issued request is recorded together
with its action-level effect on the remote state. -/
def create_or_update_card (render : List Char → List Char) (card : Card)
    (cache : List (List Char)) (st : Remote) : SyncResult :=
  let d := ensure_deck_created card.deck_name cache st
  let lk := get_anki_id_by_card_id card.id d.2.1
  match lk.1 with
  | .error e =>
    { result := .error (.wrapped "Failed to create or update card".toList e)
      cache := d.1, remote := d.2.1, requests := d.2.2 ++ lk.2 }
  | .ok none =>
    let a := remote_add_note (card.to_anki_create render) d.2.1
    { result := .ok a.2, cache := d.1, remote := a.1
      requests := d.2.2 ++ lk.2 ++ [Request.addNote card.id] }
  | .ok (some aid) =>
    { result := .ok aid, cache := d.1
      remote := remote_update_note (card.to_anki_update render aid) d.2.1
      requests := d.2.2 ++ lk.2 ++ [Request.updateNote aid] }

/-- Request classifiers for counting creates and updates. -/
def Request.isAddNote : Request → Bool
  | .addNote _ => true
  | _ => false

/-- Request classifier for updates. -/
def Request.isUpdateNote : Request → Bool
  | .updateNote _ => true
  | _ => false

/-! ## Concrete inputs used by the claim theorems and witnesses -/

/-- A body whose fenced block is opened with three backticks and
contains a four-backtick line before an exact three-backtick line. -/
def fenceLines : List Line :=
  (["```", "x", "````", "y", "```"]).map String.toList

/-- The spec's fence-width scenario: a block opened with four backticks
whose body is a complete triple-backtick fenced code sample. -/
def fourThreeLines : List Line :=
  (["````", "```", "let x", "```", "````", "#### Answer"]).map String.toList

/-- A file with `# A`, `## B`, `### C` above one complete card. -/
def deckLines : List Line :=
  (["# A", "## B", "### C", "#### Question", "```", "q", "```",
    "#### Answer", "```", "a", "```"]).map String.toList

/-- A file with `# A` directly followed by `### C` (no level-2 heading). -/
def deckLinesNoH2 : List Line :=
  (["# A", "### C", "#### Question", "```", "q", "```",
    "#### Answer", "```", "a", "```"]).map String.toList

/-- One complete card with no headings above it at all. -/
def deckLinesBare : List Line :=
  (["#### Question", "```", "q", "```", "#### Answer", "```", "a", "```"]).map String.toList

/-- A file whose single level-3 heading has no question/answer blocks,
so the parser emits no card for it. -/
def lonelyLines : List Line := (["### Lonely"]).map String.toList

/-- The spec's §8 scenario file (`What is 2+2?`). -/
def scenLines : List Line :=
  (["### What is 2+2?", "#### Question", "```", "What is 2+2?", "```",
    "#### Answer", "```", "4", "```"]).map String.toList

/-- A file carrying embedded anki-id markers both directly after the
heading and inside the question region. -/
def idLines : List Line :=
  (["### T", "<!-- anki-id: 123 -->", "#### Question",
    "<!-- anki-id: 456 -->", "```", "q", "```",
    "#### Answer", "```", "a", "```"]).map String.toList

/-- A constant id supply handing out the Anki note id `7`. -/
def supply7 : Nat → List Char := fun _ => "7".toList

/-- A second id supply, handing out `9`, for the re-run of a pass. -/
def supply9 : Nat → List Char := fun _ => "9".toList

/-- A remote that answers every request with a malformed body carrying
a single unexpected field. -/
def rawBad : Nat → RawOutcome := fun _ => RawOutcome.resp [("flag", JVal.null)]

/-- A transport that fails with a connectivity error on every attempt. -/
def rawDown : Nat → RawOutcome := fun _ => RawOutcome.fail SyncError.connectFail

/-- A concrete card for the sync witnesses. -/
def cardW : Card :=
  { id := "abc123".toList, deck_name := "root::Deck".toList, obsidian_url := none,
    question := "q".toList, answer := "a".toList, tags := [] }

/-- An initially clean remote: no notes, no decks. -/
def cleanRemote : Remote := { notes := [], nextNoteId := 100, decks := [] }

/-- A corrupted remote carrying two notes with the same id field. -/
def dupRemote : Remote :=
  { notes :=
      [{ noteId := 1, idField := "abc123".toList, question := "q1".toList,
         answer := "a1".toList, comments := [], obsidian_url := [], tags := [] },
       { noteId := 2, idField := "abc123".toList, question := "q2".toList,
         answer := "a2".toList, comments := "mine".toList, obsidian_url := [], tags := [] }],
    nextNoteId := 3, decks := ["root::Deck".toList] }

/-- The parsed form of the single card of `idLines` in from-scratch
mode. -/
def cardT : PCard :=
  { question := "q".toList, answer := "a".toList, heading2 := "General".toList,
    heading3_text := some "T".toList, anki_id := none }

/-- The parsed form of the single card of `deckLines`. -/
def cardC : PCard :=
  { question := "q".toList, answer := "a".toList, heading2 := "B".toList,
    heading3_text := some "C".toList, anki_id := none }

/-! ## Proof-support definitions for identity reconciliation -/

/-- Non-empty all-digit strings: the shape of every id the tool ever
writes into a marker line (Anki note ids are decimal integers written
via `str(new_id)`) and of every id `extract_anki_id` can return. -/
def DigitStr (v : List Char) : Prop := v ≠ [] ∧ ∀ c ∈ v, c.isDigit

/-- Fused recursive form of `insert_id_in_markdown`: walk to the first
line carrying the heading text and perform the duplicate check and the
insertion there.  `insert_go_eq` below proves it equal to
`insert_id_in_markdown`. -/
def insert_go (t v : List Char) : List Line → List Line
  | [] => []
  | l :: rest =>
    if extract_heading3 l = some t then
      (if section_has_anki_id rest then l :: rest else l :: markerLine v :: rest)
    else l :: insert_go t v rest

/-- Whether `insert_id_in_markdown` for heading text `t` leaves the
file unchanged: either no line carries the heading text, or an anki id
is already present in the section scanned after the first line that
does. -/
def insert_noop (t : List Char) : List Line → Bool
  | [] => true
  | l :: rest =>
    if extract_heading3 l = some t then section_has_anki_id rest
    else insert_noop t rest

/-- The heading-name trace of the parser: the same scanning loop as
`parseLoop`, keeping only the state that the emitted cards'
`heading3_text` values depend on — the current heading-3 text and the
truthiness of the pending question.  `parseLoop_names` proves that
`parseLoop`'s card names are computed by this function. -/
def nameLoop : Nat → Option (List Char) → Bool → List Line → List (Option (List Char))
  | 0, _, _, _ => []
  | _ + 1, _, _, [] => []
  | fuel + 1, h3, qt, l :: rest =>
    if otruthy (extract_heading2 l) then nameLoop fuel h3 qt rest
    else if otruthy (extract_heading3 l) then nameLoop fuel (extract_heading3 l) qt rest
    else if is_question_heading l then
      nameLoop fuel h3 (otruthy (extract_code_block_content rest).2.1)
        (extract_code_block_content rest).1
    else if is_answer_heading l && qt then
      (if qt && otruthy (extract_code_block_content rest).2.1 then
        (if otruthy h3 then h3 else none) ::
          nameLoop fuel h3 false (extract_code_block_content rest).1
      else nameLoop fuel h3 qt (extract_code_block_content rest).1)
    else nameLoop fuel h3 qt rest

/-- Relation between a line list and the same list with one extra line
`m`: the lists are equal, or `m` was inserted directly after an
occurrence of the line `h`, or `m` stands at the head.  With `h` a
heading-3 line and `m` a marker line this captures every intermediate
pair arising while tracing the parser over a file and its
reconciled version. -/
inductive InsRel (h m : Line) : List Line → List Line → Prop
  | refl (a : List Line) : InsRel h m a a
  | ins (u p : List Line) : InsRel h m (u ++ h :: p) (u ++ h :: m :: p)
  | hd (p : List Line) : InsRel h m p (m :: p)

/-- The classifier-level properties of a line that the scanning loop
treats as inert: it is no heading of any kind the parser reacts to, no
fence, and it starts with a character that no fence marker starts
with.  `markerLine_neutral` shows every inserted id marker line is
such a line. -/
structure NeutralLine (m : Line) : Prop where
  not_h2 : extract_heading2 m = none
  not_h3 : extract_heading3 m = none
  not_q : is_question_heading m = false
  not_a : is_answer_heading m = false
  no_fence : get_fence_marker m = none
  head_hard : ∀ c, m.head? = some c → isWs c = false ∧ c ≠ btk

/-! ## Helper lemmas -/

theorem ecbcPre_suffix (ls : List Line) (a : Option (List Char)) :
    (ecbcPre ls a).1.IsSuffix ls := by
  induction ls generalizing a with
  | nil => exact List.suffix_rfl
  | cons l rest ih =>
    rw [ecbcPre]
    cases hid : extract_anki_id l with
    | some v => exact (ih (some v)).trans (List.suffix_cons l rest)
    | none =>
      cases hm : get_fence_marker l with
      | some m => exact List.suffix_cons l rest
      | none => exact (ih a).trans (List.suffix_cons l rest)

theorem ecbcCollect_suffix (m : Line) (ls : List Line) :
    (ecbcCollect m ls).1.IsSuffix ls := by
  induction ls with
  | nil => exact List.suffix_rfl
  | cons l rest ih =>
    rw [ecbcCollect]
    by_cases hp : m.isPrefixOf l
    · simp only [hp, if_true]
      exact List.suffix_cons l rest
    · simp only [hp, if_false]
      exact ih.trans (List.suffix_cons l rest)

theorem ecbc_suffix (ls : List Line) :
    (extract_code_block_content ls).1.IsSuffix ls := by
  rw [extract_code_block_content]
  cases hm : (ecbcPre ls none).2.1 with
  | none => exact ecbcPre_suffix ls none
  | some m => exact (ecbcCollect_suffix m _).trans (ecbcPre_suffix ls none)

theorem ecbc_length_le (ls : List Line) :
    (extract_code_block_content ls).1.length ≤ ls.length :=
  (ecbc_suffix ls).length_le

/-! ## C1: fence-width matching on block close -/

/-- C1 counterexample: in `extract_code_block_content`, a block opened
with three backticks is closed by the *four*-backtick line (which the
claim says must be treated as ordinary body content): the content stops
at `x` and the remaining lines resume after the four-backtick line,
instead of the claim's prediction that the body is `x\n````\ny` closed
by the final exact-width fence. -/
theorem c1_counterexample :
    extract_code_block_content fenceLines =
      ((["y", "```"]).map String.toList, some "x".toList, none) ∧
    extract_code_block_content fenceLines ≠
      ([], some "x\n````\ny".toList, none) := by decide

/-- C1 (amended): a fenced code block opened with a fence marker `f`
(leading whitespace plus `N ≥ 3` backticks) is closed by the first
subsequent line that has `f` as a prefix — so any fence of width at
least `N` with the same leading whitespace closes it, while a narrower
fence is appended to the body as ordinary content.  In particular a
question block opened with four backticks preserves an inner
triple-backtick fence verbatim and closes on the four-backtick line. -/
theorem c1_amended :
    (∀ (f : Line) (pre post : List Line) (close : Line),
        (∀ l ∈ pre, ¬ f.isPrefixOf l) → f.isPrefixOf close →
        ecbcCollect f (pre ++ close :: post) = (post, pre)) ∧
    extract_code_block_content fourThreeLines =
      ([("#### Answer".toList)], some ("```\nlet x\n```".toList), none) := by
  constructor
  · intro f pre post close hpre hclose
    induction pre with
    | nil => simp [ecbcCollect, hclose]
    | cons l rest ih =>
      have hl : ¬ f.isPrefixOf l = true := hpre l (by simp)
      simp [ecbcCollect, hl, ih (fun x hx => hpre x (by simp [hx]))]
  · decide

/-- Witness for `c1_amended`: the general close-on-prefix clause at the
inner lines of the four-backtick scenario. -/
theorem c1_amended_witness :
    ecbcCollect "````".toList
        ((["```", "let x", "```"]).map String.toList ++
          "````".toList :: [("#### Answer".toList)]) =
      ([("#### Answer".toList)], (["```", "let x", "```"]).map String.toList) :=
  c1_amended.1 _ _ _ _ (by decide) (by decide)

/-! ## C4: no structural-mismatch check in reconciliation -/

/-- C4 counterexample: `lonelyLines` has one level-3 heading but the
parser produces zero cards, yet the parse-and-reconcile pass completes
normally and leaves the file unchanged — reconciliation has no
count-mismatch failure at all (its result type is total; `main.py`
contains no such check and no `StructuralMismatch`). -/
theorem c4_counterexample :
    lonelyLines.countP (fun l => otruthy (extract_heading3 l)) = 1 ∧
    (parse_lines false lonelyLines).length = 0 ∧
    reconcile supply7 lonelyLines = lonelyLines := by decide

/-- C4 (amended): reconciliation never compares the number of level-3
headings with the number of parsed cards and never fails; when a card's
heading text is not found in the file, `insert_id_in_markdown` merely
logs a warning and leaves the file unchanged, and processing
continues. -/
theorem c4_amended (t v : List Char) (lines : List Line)
    (h : ∀ l ∈ lines, extract_heading3 l ≠ some t) :
    insert_id_in_markdown t v lines = lines := by
  have hf : find_heading3_position t lines = none := by
    induction lines with
    | nil => rfl
    | cons l rest ih =>
      simp [find_heading3_position, h l (by simp),
        ih (fun x hx => h x (by simp [hx]))]
  simp [insert_id_in_markdown, hf]

/-- Witness for `c4_amended`: inserting an id for a heading text that
the file does not contain leaves `lonelyLines` unchanged. -/
theorem c4_amended_witness :
    insert_id_in_markdown "Missing".toList "7".toList lonelyLines = lonelyLines :=
  c4_amended "Missing".toList "7".toList lonelyLines (by decide)

/-! ## C9: updates never write the comments field -/

/-- The update payload contains no `comments` field. -/
theorem alookup_comments_update (render : List Char → List Char) (c : Card) (aid : Nat) :
    alookup "comments".toList (c.to_anki_update render aid).fields = none := rfl

/-- C9: an update request writes only the question and answer fields
(plus tags); `comments` is not among the written fields, so applying
the update to any remote state leaves every note's comments unchanged. -/
theorem c9_update_never_writes_comments (render : List Char → List Char) (c : Card)
    (aid : Nat) (st : Remote) :
    (c.to_anki_update render aid).fields.map Prod.fst =
      ["question".toList, "answer".toList] ∧
    alookup "comments".toList (c.to_anki_update render aid).fields = none ∧
    (remote_update_note (c.to_anki_update render aid) st).notes.map RemoteNote.comments =
      st.notes.map RemoteNote.comments := by
  refine ⟨rfl, alookup_comments_update render c aid, ?_⟩
  simp only [remote_update_note, List.map_map]
  refine List.map_congr_left (fun n _ => ?_)
  dsimp only [Function.comp]
  by_cases h : n.noteId = (c.to_anki_update render aid).id
  · rw [if_pos h]
    rfl
  · rw [if_neg h]

/-! ## C2: deck path derivation -/

/-- Every parsed card's `heading2` is either the state the loop was
entered with or the text of some level-2 heading among the scanned
lines. -/
theorem parseLoop_heading2_provenance (fsc : Bool) (fuel : Nat) :
    ∀ (h2 : List Char) (h3 : Option (List Char)) (h3t : Option (List Line))
      (q qid : Option (List Char)) (ls : List Line) (c : PCard),
      c ∈ parseLoop fsc fuel h2 h3 h3t q qid ls →
      c.heading2 = h2 ∨
        ∃ l ∈ ls, otruthy (extract_heading2 l) ∧ (extract_heading2 l).getD [] = c.heading2 := by
  induction fuel with
  | zero =>
    intro h2 h3 h3t q qid ls c hc
    simp [parseLoop] at hc
  | succ n ih =>
    intro h2 h3 h3t q qid ls c hc
    match ls with
    | [] => simp [parseLoop] at hc
    | l :: rest =>
      rw [parseLoop] at hc
      dsimp only at hc
      by_cases hh2 : otruthy (extract_heading2 l)
      · rw [if_pos hh2] at hc
        rcases ih _ _ _ _ _ _ _ hc with h | ⟨x, hx, hbx⟩
        · exact Or.inr ⟨l, List.mem_cons_self l rest, hh2, h.symm⟩
        · exact Or.inr ⟨x, List.mem_cons_of_mem l hx, hbx⟩
      · rw [if_neg hh2] at hc
        split_ifs at hc <;>
          first
            | (rcases List.mem_cons.1 hc with rfl | hmem
               · exact Or.inl rfl
               · rcases ih _ _ _ _ _ _ _ hmem with h' | ⟨x, hx, hbx⟩
                 · exact Or.inl h'
                 · exact Or.inr ⟨x, List.mem_cons_of_mem l
                     ((ecbc_suffix rest).sublist.subset hx), hbx⟩)
            | (rcases ih _ _ _ _ _ _ _ hc with h' | ⟨x, hx, hbx⟩
               · exact Or.inl h'
               · first
                 | exact Or.inr ⟨x, List.mem_cons_of_mem l hx, hbx⟩
                 | exact Or.inr ⟨x, List.mem_cons_of_mem l
                     ((ecbc_suffix rest).sublist.subset hx), hbx⟩)

/-- C2 counterexample: under `# A`, `## B`, `### C` the deck name the
code derives is `root::Untitled::B` — the middle segment is the front
matter title (`Untitled` when the file has none), never the level-1
heading `A`, refuting the claimed `root::A::B`. -/
theorem c2_counterexample :
    ((parse_lines false deckLines).map (fun c =>
        full_deck_name "root".toList (extract_title_from_front_matter []) c.heading2)) =
      ["root::Untitled::B".toList] ∧
    ("root::Untitled::B".toList : List Char) ≠ "root::A::B".toList := by decide

/-- C2 (amended): the derived deck path always has exactly the three
segments `root::title::heading2`, where `title` comes from the front
matter (default `Untitled`) — level-1 headings never contribute — and
`heading2` is the text of the level-2 heading in scope, defaulting to
`General` (never omitted): under `# A`, `## B`, `### C` the path is
`root::Untitled::B`; under `# A`, `### C` it is
`root::Untitled::General`; with no headings it is also
`root::Untitled::General`. -/
theorem c2_amended :
    ((parse_lines false deckLines).map (fun c =>
        full_deck_name "root".toList (extract_title_from_front_matter []) c.heading2)) =
      ["root::Untitled::B".toList] ∧
    ((parse_lines false deckLinesNoH2).map (fun c =>
        full_deck_name "root".toList (extract_title_from_front_matter []) c.heading2)) =
      ["root::Untitled::General".toList] ∧
    ((parse_lines false deckLinesBare).map (fun c =>
        full_deck_name "root".toList (extract_title_from_front_matter []) c.heading2)) =
      ["root::Untitled::General".toList] ∧
    (∀ (fsc : Bool) (lines : List Line) (c : PCard), c ∈ parse_lines fsc lines →
      c.heading2 = "General".toList ∨
        ∃ l ∈ lines, otruthy (extract_heading2 l) ∧
          (extract_heading2 l).getD [] = c.heading2) :=
  ⟨by decide, by decide, by decide,
   fun fsc lines c hc => parseLoop_heading2_provenance fsc _ _ _ _ _ _ _ c hc⟩

/-- Witness for `c2_amended`: the provenance clause at the concrete
card of `deckLines`, whose `heading2` is the text of the `## B` line. -/
theorem c2_amended_witness :
    cardC.heading2 = "General".toList ∨
      ∃ l ∈ deckLines, otruthy (extract_heading2 l) ∧
        (extract_heading2 l).getD [] = cardC.heading2 :=
  c2_amended.2.2.2 false deckLines cardC (by decide)

/-! ## C5 and C6: create-or-update keyed on the card id -/

theorem ensure_deck_notes (deck : List Char) (cache : List (List Char)) (st : Remote) :
    (ensure_deck_created deck cache st).2.1.notes = st.notes ∧
    (ensure_deck_created deck cache st).2.1.nextNoteId = st.nextNoteId := by
  rw [ensure_deck_created]
  split_ifs <;> exact ⟨rfl, rfl⟩

theorem ensure_deck_no_note_requests (deck : List Char) (cache : List (List Char))
    (st : Remote) :
    (ensure_deck_created deck cache st).2.2.countP Request.isAddNote = 0 ∧
    (ensure_deck_created deck cache st).2.2.countP Request.isUpdateNote = 0 := by
  rw [ensure_deck_created]
  split_ifs <;> exact ⟨rfl, rfl⟩

theorem remote_find_congr (cid : List Char) (st st' : Remote)
    (h : st.notes = st'.notes) :
    remote_find_notes_by_id cid st = remote_find_notes_by_id cid st' := by
  simp [remote_find_notes_by_id, h]

/-- Characterization of `create_or_update_card` when no remote note
carries the card's id: exactly one `addNote` is issued. -/
theorem create_or_update_none_case (render : List Char → List Char) (card : Card)
    (cache : List (List Char)) (st : Remote)
    (h : remote_find_notes_by_id card.id st = []) :
    create_or_update_card render card cache st =
      { result := .ok (ensure_deck_created card.deck_name cache st).2.1.nextNoteId
        cache := (ensure_deck_created card.deck_name cache st).1
        remote := (remote_add_note (card.to_anki_create render)
          (ensure_deck_created card.deck_name cache st).2.1).1
        requests := (ensure_deck_created card.deck_name cache st).2.2 ++
          [Request.findNotes card.id] ++ [Request.addNote card.id] } := by
  have hf : remote_find_notes_by_id card.id
      (ensure_deck_created card.deck_name cache st).2.1 = [] := by
    rw [remote_find_congr _ _ st (ensure_deck_notes card.deck_name cache st).1, h]
  simp [create_or_update_card, get_anki_id_by_card_id, hf, remote_add_note]

/-- Characterization of `create_or_update_card` when exactly one remote
note carries the card's id: exactly one `updateNote` is issued. -/
theorem create_or_update_one_case (render : List Char → List Char) (card : Card)
    (cache : List (List Char)) (st : Remote) (n : Nat)
    (h : remote_find_notes_by_id card.id st = [n]) :
    create_or_update_card render card cache st =
      { result := .ok n
        cache := (ensure_deck_created card.deck_name cache st).1
        remote := remote_update_note (card.to_anki_update render n)
          (ensure_deck_created card.deck_name cache st).2.1
        requests := (ensure_deck_created card.deck_name cache st).2.2 ++
          [Request.findNotes card.id] ++ [Request.updateNote n] } := by
  have hf : remote_find_notes_by_id card.id
      (ensure_deck_created card.deck_name cache st).2.1 = [n] := by
    rw [remote_find_congr _ _ st (ensure_deck_notes card.deck_name cache st).1, h]
  simp [create_or_update_card, get_anki_id_by_card_id, hf]

/-- Characterization of `create_or_update_card` when several remote
notes carry the card's id: the duplicate error is raised, wrapped by
the two enclosing handlers, and nothing is written. -/
theorem create_or_update_dup_case (render : List Char → List Char) (card : Card)
    (cache : List (List Char)) (st : Remote)
    (h : 2 ≤ (remote_find_notes_by_id card.id st).length) :
    create_or_update_card render card cache st =
      { result := .error (.wrapped "Failed to create or update card".toList
          (.wrapped "Error finding note by card_id".toList
            (.multipleNotes (remote_find_notes_by_id card.id st).length card.id)))
        cache := (ensure_deck_created card.deck_name cache st).1
        remote := (ensure_deck_created card.deck_name cache st).2.1
        requests := (ensure_deck_created card.deck_name cache st).2.2 ++
          [Request.findNotes card.id] } := by
  have hf : remote_find_notes_by_id card.id
      (ensure_deck_created card.deck_name cache st).2.1 =
      remote_find_notes_by_id card.id st :=
    remote_find_congr _ _ st (ensure_deck_notes card.deck_name cache st).1
  have hne : (remote_find_notes_by_id card.id st).isEmpty = false := by
    cases hx : remote_find_notes_by_id card.id st with
    | nil => rw [hx] at h; simp at h
    | cons a l => rfl
  have hgt : 1 < (remote_find_notes_by_id card.id st).length := h
  simp [create_or_update_card, get_anki_id_by_card_id, hf, hne, hgt]

/-- C5: syncing one card is create-or-update keyed solely on the
card's local id.  If the remote lookup finds no note, exactly one
create request is issued and the remote gains exactly one note carrying
the id; if it finds exactly one note, an update of that note is issued
and no create; hence syncing the same card twice against an initially
clean remote yields exactly one remote note, the second sync being an
update. -/
theorem c5_sync_create_or_update (render : List Char → List Char) (card : Card)
    (cache : List (List Char)) (st : Remote) :
    (remote_find_notes_by_id card.id st = [] →
      (create_or_update_card render card cache st).requests.countP Request.isAddNote = 1 ∧
      (create_or_update_card render card cache st).requests.countP Request.isUpdateNote = 0 ∧
      ∃ note : RemoteNote,
        (create_or_update_card render card cache st).remote.notes = st.notes ++ [note] ∧
        note.idField = card.id) ∧
    (∀ n : Nat, remote_find_notes_by_id card.id st = [n] →
      (create_or_update_card render card cache st).requests.countP Request.isAddNote = 0 ∧
      (create_or_update_card render card cache st).requests.countP Request.isUpdateNote = 1 ∧
      (create_or_update_card render card cache st).result = .ok n) ∧
    (st.notes = [] →
      ((create_or_update_card render card cache st).requests.countP Request.isAddNote = 1 ∧
       (create_or_update_card render card
          (create_or_update_card render card cache st).cache
          (create_or_update_card render card cache st).remote).requests.countP
            Request.isAddNote = 0 ∧
       (create_or_update_card render card
          (create_or_update_card render card cache st).cache
          (create_or_update_card render card cache st).remote).requests.countP
            Request.isUpdateNote = 1 ∧
       (create_or_update_card render card
          (create_or_update_card render card cache st).cache
          (create_or_update_card render card cache st).remote).remote.notes.length = 1)) := by
  have hreq := ensure_deck_no_note_requests card.deck_name cache st
  refine ⟨?_, ?_, ?_⟩
  · intro hfind
    rw [create_or_update_none_case render card cache st hfind]
    refine ⟨?_, ?_, ?_⟩
    · simp [List.countP_append, hreq.1, Request.isAddNote, List.countP_cons]
    · simp [List.countP_append, hreq.2, Request.isUpdateNote, List.countP_cons]
    · refine ⟨{ noteId := (ensure_deck_created card.deck_name cache st).2.1.nextNoteId
                idField := card.id
                question := render card.question
                answer := render card.answer
                comments := []
                obsidian_url := card.obsidian_url.getD []
                tags := card.tags }, ?_, rfl⟩
      have hadd : (remote_add_note (card.to_anki_create render)
          (ensure_deck_created card.deck_name cache st).2.1).1.notes =
          (ensure_deck_created card.deck_name cache st).2.1.notes ++
            [{ noteId := (ensure_deck_created card.deck_name cache st).2.1.nextNoteId
               idField := card.id
               question := render card.question
               answer := render card.answer
               comments := []
               obsidian_url := card.obsidian_url.getD []
               tags := card.tags }] := rfl
      dsimp only
      rw [hadd, (ensure_deck_notes card.deck_name cache st).1]
  · intro n hfind
    rw [create_or_update_one_case render card cache st n hfind]
    refine ⟨?_, ?_, rfl⟩
    · simp [List.countP_append, hreq.1, Request.isAddNote, List.countP_cons]
    · simp [List.countP_append, hreq.2, Request.isUpdateNote, List.countP_cons]
  · intro hclean
    have hfind : remote_find_notes_by_id card.id st = [] := by
      simp [remote_find_notes_by_id, hclean]
    have h1 := create_or_update_none_case render card cache st hfind
    have hnotes1 : (create_or_update_card render card cache st).remote.notes =
        [{ noteId := (ensure_deck_created card.deck_name cache st).2.1.nextNoteId
           idField := card.id
           question := render card.question
           answer := render card.answer
           comments := []
           obsidian_url := card.obsidian_url.getD []
           tags := card.tags }] := by
      rw [h1]
      simp [remote_add_note, Card.to_anki_create, alookup,
        (ensure_deck_notes card.deck_name cache st).1, hclean]
    have hfind2 : remote_find_notes_by_id card.id
        (create_or_update_card render card cache st).remote =
        [(ensure_deck_created card.deck_name cache st).2.1.nextNoteId] := by
      simp [remote_find_notes_by_id, hnotes1]
    have h2 := create_or_update_one_case render card
      (create_or_update_card render card cache st).cache
      (create_or_update_card render card cache st).remote _ hfind2
    have hreq2 := ensure_deck_no_note_requests card.deck_name
      (create_or_update_card render card cache st).cache
      (create_or_update_card render card cache st).remote
    refine ⟨?_, ?_, ?_, ?_⟩
    · rw [h1]
      simp [List.countP_append, hreq.1, Request.isAddNote, List.countP_cons]
    · rw [h2]
      simp [List.countP_append, hreq2.1, Request.isAddNote, List.countP_cons]
    · rw [h2]
      simp [List.countP_append, hreq2.2, Request.isUpdateNote, List.countP_cons]
    · rw [h2]
      have hn := (ensure_deck_notes card.deck_name
        (create_or_update_card render card cache st).cache
        (create_or_update_card render card cache st).remote).1
      simp [remote_update_note, hn, hnotes1]

/-- Witness for `c5_sync_create_or_update` at a concrete card and a
clean remote. -/
theorem c5_witness :
    (create_or_update_card id cardW [] cleanRemote).requests.countP Request.isAddNote = 1 ∧
    (create_or_update_card id cardW
        (create_or_update_card id cardW [] cleanRemote).cache
        (create_or_update_card id cardW [] cleanRemote).remote).requests.countP
          Request.isAddNote = 0 ∧
    (create_or_update_card id cardW
        (create_or_update_card id cardW [] cleanRemote).cache
        (create_or_update_card id cardW [] cleanRemote).remote).requests.countP
          Request.isUpdateNote = 1 ∧
    (create_or_update_card id cardW
        (create_or_update_card id cardW [] cleanRemote).cache
        (create_or_update_card id cardW [] cleanRemote).remote).remote.notes.length = 1 :=
  (c5_sync_create_or_update id cardW [] cleanRemote).2.2 (by decide)

/-- C6: when the remote lookup for a card's id matches more than one
note, the sync of that card fails with the duplicate-notes error
reporting the duplication; no note is picked, and no create or update
request is issued (the remote notes are untouched). -/
theorem c6_duplicate_remote_note (render : List Char → List Char) (card : Card)
    (cache : List (List Char)) (st : Remote)
    (h : 2 ≤ (remote_find_notes_by_id card.id st).length) :
    (create_or_update_card render card cache st).result =
      .error (.wrapped "Failed to create or update card".toList
        (.wrapped "Error finding note by card_id".toList
          (.multipleNotes (remote_find_notes_by_id card.id st).length card.id))) ∧
    (create_or_update_card render card cache st).remote.notes = st.notes ∧
    (create_or_update_card render card cache st).requests.countP Request.isAddNote = 0 ∧
    (create_or_update_card render card cache st).requests.countP Request.isUpdateNote = 0 := by
  rw [create_or_update_dup_case render card cache st h]
  have hreq := ensure_deck_no_note_requests card.deck_name cache st
  refine ⟨rfl, (ensure_deck_notes card.deck_name cache st).1, ?_, ?_⟩
  · simp [List.countP_append, hreq.1, Request.isAddNote, List.countP_cons]
  · simp [List.countP_append, hreq.2, Request.isUpdateNote, List.countP_cons]

/-- Witness for `c6_duplicate_remote_note` on a remote carrying two
notes with the same id field. -/
theorem c6_witness :
    (create_or_update_card id cardW [] dupRemote).result =
      .error (.wrapped "Failed to create or update card".toList
        (.wrapped "Error finding note by card_id".toList
          (.multipleNotes 2 "abc123".toList))) ∧
    (create_or_update_card id cardW [] dupRemote).remote.notes = dupRemote.notes :=
  ⟨by
    have h := (c6_duplicate_remote_note id cardW [] dupRemote (by decide)).1
    rw [h]
    decide,
   (c6_duplicate_remote_note id cardW [] dupRemote (by decide)).2.1⟩

/-! ## C7 and C8: response validation and the retry loop -/

theorem send_request_go_attempts_le (raw : Nat → RawOutcome) (delay retries : Nat) :
    ∀ (remaining attempt : Nat) (last : Option SyncError),
      (send_request_go raw delay retries remaining attempt last).2.1 ≤
        attempt + remaining := by
  intro remaining
  induction remaining with
  | zero =>
    intro attempt last
    simp [send_request_go]
  | succ r ih =>
    intro attempt last
    rw [send_request_go]
    cases h : attempt_once raw attempt with
    | ok v => simp
    | error e =>
      have := ih (attempt + 1) (some e)
      simp only []
      omega

theorem send_request_go_all_fail (raw : Nat → RawOutcome) (delay retries : Nat)
    (errs : Nat → SyncError) :
    ∀ (remaining attempt : Nat) (last : Option SyncError),
      attempt + remaining = retries →
      (∀ i, attempt ≤ i → i < retries → attempt_once raw i = .error (errs i)) →
      1 ≤ remaining →
      (send_request_go raw delay retries remaining attempt last).1 =
        .error (errs (retries - 1)) ∧
      (send_request_go raw delay retries remaining attempt last).2.1 = retries ∧
      (send_request_go raw delay retries remaining attempt last).2.2 =
        (List.range' (attempt + 1) (remaining - 1)).map (fun j => delay * j) := by
  intro remaining
  induction remaining with
  | zero =>
    intro attempt last _ _ h1
    omega
  | succ r ih =>
    intro attempt last hsum hfail _
    have hcur : attempt_once raw attempt = .error (errs attempt) :=
      hfail attempt le_rfl (by omega)
    rw [send_request_go, hcur]
    dsimp only
    cases r with
    | zero =>
      have hatt : retries - 1 = attempt := by omega
      have hguard : ¬ attempt < retries - 1 := by omega
      refine ⟨?_, ?_, ?_⟩
      · show Except.error (errs attempt) = Except.error (errs (retries - 1))
        rw [hatt]
      · show attempt + 1 = retries
        omega
      · show (if attempt < retries - 1 then [delay * (attempt + 1)] else []) ++ [] =
          (List.range' (attempt + 1) 0).map (fun j => delay * j)
        simp [hguard]
    | succ r' =>
      have hrec := ih (attempt + 1) (some (errs attempt)) (by omega)
        (fun i hi hlt => hfail i (by omega) hlt) (by omega)
      have hguard : attempt < retries - 1 := by omega
      simp only [hguard, if_true, List.singleton_append, hrec.1, hrec.2.1, hrec.2.2,
        Nat.succ_sub_one]
      refine ⟨trivial, trivial, ?_⟩
      rw [List.range'_succ]
      simp

theorem send_request_all_fail (raw : Nat → RawOutcome) (delay retries : Nat)
    (errs : Nat → SyncError) (h1 : 1 ≤ retries)
    (hfail : ∀ i, i < retries → attempt_once raw i = .error (errs i)) :
    (send_request raw delay retries).1 = .error (errs (retries - 1)) ∧
    (send_request raw delay retries).2.1 = retries ∧
    (send_request raw delay retries).2.2 =
      (List.range' 1 (retries - 1)).map (fun j => delay * j) :=
  send_request_go_all_fail raw delay retries errs retries 0 none (by omega)
    (fun i _ hlt => hfail i hlt) h1

/-- C7 counterexample: a response with a single unexpected field raises
the field-count protocol violation, yet the request is retried the full
`max_retries = 3` attempts rather than a single one — protocol
violations go through the same `except Exception` retry path as
connectivity failures (anki.py, line 191). -/
theorem c7_counterexample :
    (send_request rawBad retry_delay max_retries).1 = .error SyncError.badFieldCount ∧
    (send_request rawBad retry_delay max_retries).2.1 = 3 ∧ (3 : Nat) ≠ 1 := by decide

/-- C7 (amended): a response is accepted exactly when it has exactly
the two fields `result` and `error` with a null `error`; any other
response raises a protocol-violation error for that attempt — but like
any failure inside `send_request`'s loop it is retried up to the retry
ceiling, with the same error propagating only after the final
attempt. -/
theorem c7_amended :
    (∀ (rd : ResponseData) (v : JVal),
        validate_response rd = .ok v ↔
          (rd.length = 2 ∧ alookup "error" rd = some JVal.null ∧
           alookup "result" rd = some v)) ∧
    (∀ (rd : ResponseData) (e : SyncError), validate_response rd = .error e →
        ∀ (raw : Nat → RawOutcome) (delay retries : Nat),
          (∀ n, raw n = .resp rd) → 1 ≤ retries →
          (send_request raw delay retries).1 = .error e ∧
          (send_request raw delay retries).2.1 = retries) := by
  constructor
  · intro rd v
    constructor
    · intro h
      rw [validate_response] at h
      split_ifs at h with h1 h2 h3 h4
      refine ⟨by omega, not_ne_iff.1 h4, ?_⟩
      cases hw : alookup "result" rd with
      | none => rw [hw] at h3; simp at h3
      | some w =>
        rw [hw] at h
        simp only [Option.getD_some] at h
        injection h with h5
        rw [h5]
    · rintro ⟨hl, he, hr⟩
      simp [validate_response, hl, he, hr]
  · intro rd e hval raw delay retries hresp h1
    have hfail : ∀ i, i < retries → attempt_once raw i = .error ((fun _ => e) i) := by
      intro i _
      simp [attempt_once, hresp i, hval]
    have h := send_request_all_fail raw delay retries (fun _ => e) h1 hfail
    exact ⟨h.1, h.2.1⟩

/-- Witness for `c7_amended`: the accepted-shape clause at the
canonical `[result, error]` body, and the retried clause at `rawBad`. -/
theorem c7_amended_witness :
    validate_response [("result", JVal.num 5), ("error", JVal.null)] = .ok (JVal.num 5) ∧
    (send_request rawBad 1 3).1 = .error SyncError.badFieldCount ∧
    (send_request rawBad 1 3).2.1 = 3 :=
  ⟨(c7_amended.1 _ _).2 (by decide),
   (c7_amended.2 [("flag", JVal.null)] SyncError.badFieldCount (by decide)
      rawBad 1 3 (fun _ => rfl) (by decide)).1,
   (c7_amended.2 [("flag", JVal.null)] SyncError.badFieldCount (by decide)
      rawBad 1 3 (fun _ => rfl) (by decide)).2⟩

/-- C8: every remote call retries transient failures with a backoff
delay between attempts up to the fixed retry ceiling; the number of
attempts never exceeds the ceiling, and when every attempt fails the
last error propagates to the caller, with the backoff sleeps
`delay * 1, delay * 2, ...` taken between consecutive attempts. -/
theorem c8_retry_bounded_backoff :
    (∀ (raw : Nat → RawOutcome) (delay retries : Nat),
        (send_request raw delay retries).2.1 ≤ retries) ∧
    (∀ (raw : Nat → RawOutcome) (delay retries : Nat) (errs : Nat → SyncError),
        1 ≤ retries →
        (∀ i, i < retries → attempt_once raw i = .error (errs i)) →
        (send_request raw delay retries).1 = .error (errs (retries - 1)) ∧
        (send_request raw delay retries).2.1 = retries ∧
        (send_request raw delay retries).2.2 =
          (List.range' 1 (retries - 1)).map (fun j => delay * j)) := by
  constructor
  · intro raw delay retries
    simpa using send_request_go_attempts_le raw delay retries retries 0 none
  · intro raw delay retries errs h1 hfail
    exact send_request_all_fail raw delay retries errs h1 hfail

/-- Witness for `c8_retry_bounded_backoff`: a permanently unreachable
remote with the source's default `max_retries = 3`, `retry_delay = 1`
gives exactly three attempts, sleeps of 1 and 2 seconds, and the
connectivity error propagating. -/
theorem c8_witness :
    (send_request rawDown retry_delay max_retries).2.1 ≤ max_retries ∧
    (send_request rawDown retry_delay max_retries).1 = .error SyncError.connectFail ∧
    (send_request rawDown retry_delay max_retries).2.1 = 3 ∧
    (send_request rawDown retry_delay max_retries).2.2 = [1, 2] := by
  have h := c8_retry_bounded_backoff.2 rawDown retry_delay max_retries
    (fun _ => SyncError.connectFail) (by decide) (fun i _ => rfl)
  exact ⟨c8_retry_bounded_backoff.1 rawDown retry_delay max_retries,
    h.1, h.2.1, by rw [h.2.2]; decide⟩

/-! ## C10: from-scratch parsing carries no ids -/

/-- Every card produced by the scanning loop with `from_scratch=True`
has no `anki_id`, whatever the loop state. -/
theorem parseLoop_true_no_id (fuel : Nat) :
    ∀ (h2 : List Char) (h3 : Option (List Char)) (h3t : Option (List Line))
      (q qid : Option (List Char)) (ls : List Line) (c : PCard),
      c ∈ parseLoop true fuel h2 h3 h3t q qid ls → c.anki_id = none := by
  induction fuel with
  | zero =>
    intro h2 h3 h3t q qid ls c hc
    simp [parseLoop] at hc
  | succ n ih =>
    intro h2 h3 h3t q qid ls c hc
    match ls with
    | [] => simp [parseLoop] at hc
    | l :: rest =>
      rw [parseLoop] at hc
      dsimp only at hc
      split_ifs at hc <;>
        first
          | exact absurd (rfl : true = true) (by assumption)
          | (rcases List.mem_cons.1 hc with rfl | hmem
             · rfl
             · exact ih _ _ _ _ _ _ _ hmem)
          | exact ih _ _ _ _ _ _ _ hc

/-- C10: parsing with `from_scratch` set returns cards none of which
carries a pre-existing identifier — every embedded anki-id marker line
is ignored in that mode. -/
theorem c10_from_scratch_ignores_ids (lines : List Line) (c : PCard)
    (hc : c ∈ parse_lines true lines) : c.anki_id = none :=
  parseLoop_true_no_id _ _ _ _ _ _ _ c hc

/-- Witness for `c10_from_scratch_ignores_ids`: a file with id markers
both directly after the heading and inside the question region still
parses, from scratch, to a card without an id. -/
theorem c10_witness :
    cardT ∈ parse_lines true idLines ∧ cardT.anki_id = none :=
  ⟨by decide, c10_from_scratch_ignores_ids idLines cardT (by decide)⟩

/-! ## C3: idempotent reconciliation — line-level lemmas -/

theorem digit_not_ws (c : Char) (h : c.isDigit = true) : isWs c = false := by
  rw [isWs, Char.isWhitespace]
  by_contra hws
  simp only [Bool.not_eq_false, Bool.or_eq_true, decide_eq_true_eq] at hws
  rcases hws with ((h1 | h1) | h1) | h1 <;> subst h1 <;> exact absurd h (by decide)

theorem extract_anki_id_digits (l : Line) (d : List Char)
    (h : extract_anki_id l = some d) : DigitStr d := by
  rw [extract_anki_id] at h
  dsimp only at h
  split_ifs at h with h1 h2 h3 h4
  injection h with h5
  subst h5
  refine ⟨by simpa using h3, fun c hc => List.mem_takeWhile_imp hc⟩

theorem find_anki_id_digits : ∀ (ls : List Line) (d : List Char),
    find_anki_id_after_heading3 ls = some d → DigitStr d := by
  intro ls
  induction ls with
  | nil => intro d h; exact Option.noConfusion h
  | cons l rest ih =>
    intro d h
    rw [find_anki_id_after_heading3] at h
    split_ifs at h with h1
    cases hx : extract_anki_id l with
      | some v =>
        rw [hx] at h
        injection h with h2
        exact h2 ▸ extract_anki_id_digits l v hx
      | none =>
        rw [hx] at h
        exact ih d h

theorem ecbcPre_aid_digits : ∀ (ls : List Line) (s : Option (List Char)),
    (∀ v, s = some v → DigitStr v) →
    ∀ v, (ecbcPre ls s).2.2 = some v → DigitStr v := by
  intro ls
  induction ls with
  | nil => intro s hs v hv; exact hs v hv
  | cons l rest ih =>
    intro s hs v hv
    rw [ecbcPre] at hv
    cases hx : extract_anki_id l with
    | some w =>
      rw [hx] at hv
      exact ih (some w) (fun u hu => by
        injection hu with hu2; exact hu2 ▸ extract_anki_id_digits l w hx) v hv
    | none =>
      rw [hx] at hv
      cases hm : get_fence_marker l with
      | some m => rw [hm] at hv; exact hs v hv
      | none => rw [hm] at hv; exact ih s hs v hv

theorem ecbc_aid_digits (ls : List Line) :
    ∀ v, (extract_code_block_content ls).2.2 = some v → DigitStr v := by
  intro v hv
  rw [extract_code_block_content] at hv
  cases hm : (ecbcPre ls none).2.1 with
  | none =>
    rw [hm] at hv
    exact ecbcPre_aid_digits ls none (fun u hu => Option.noConfusion hu) v hv
  | some m =>
    rw [hm] at hv
    exact ecbcPre_aid_digits ls none (fun u hu => Option.noConfusion hu) v hv

theorem markerLine_eq (v : List Char) : markerLine v =
    '<' :: '!' :: '-' :: '-' :: ' ' :: 'a' :: 'n' :: 'k' :: 'i' :: '-' :: 'i' ::
      'd' :: ':' :: ' ' :: (v ++ [' ', '-', '-', '>']) := by
  rw [markerLine, List.append_assoc]
  rfl

theorem markerLine_not_h2 (v : List Char) : extract_heading2 (markerLine v) = none := by
  rw [markerLine_eq]
  rfl

theorem markerLine_not_h3 (v : List Char) : extract_heading3 (markerLine v) = none := by
  rw [markerLine_eq]
  rfl

theorem markerLine_not_q (v : List Char) : is_question_heading (markerLine v) = false := by
  rw [markerLine_eq]
  rfl

theorem markerLine_not_a (v : List Char) : is_answer_heading (markerLine v) = false := by
  rw [markerLine_eq]
  rfl

theorem markerLine_no_fence (v : List Char) : get_fence_marker (markerLine v) = none := by
  rw [markerLine_eq]
  rfl

theorem markerLine_neutral (v : List Char) : NeutralLine (markerLine v) := by
  refine ⟨markerLine_not_h2 v, markerLine_not_h3 v, markerLine_not_q v,
    markerLine_not_a v, markerLine_no_fence v, ?_⟩
  intro c hc
  rw [markerLine_eq] at hc
  injection hc with h
  subst h
  exact ⟨by decide, by decide⟩

theorem takeWhile_all_append (p : Char → Bool) : ∀ (v x : List Char),
    (∀ c ∈ v, p c = true) → (∀ c, x.head? = some c → p c = false) →
    (v ++ x).takeWhile p = v ∧ (v ++ x).drop v.length = x := by
  intro v x hv hx
  constructor
  · induction v with
    | nil =>
      cases x with
      | nil => rfl
      | cons a x' => simp [List.takeWhile_cons, hx a rfl]
    | cons a v' ih =>
      simp only [List.cons_append, List.takeWhile_cons, hv a (by simp), if_true]
      rw [ih (fun c hc => hv c (by simp [hc]))]
  · exact List.drop_left v x

theorem markerLine_anki_id (v : List Char) (hv : DigitStr v) :
    extract_anki_id (markerLine v) = some v := by
  obtain ⟨hne, hdig⟩ := hv
  obtain ⟨c, v', rfl⟩ : ∃ c v', v = c :: v' := by
    cases v with
    | nil => exact absurd rfl hne
    | cons c v' => exact ⟨c, v', rfl⟩
  have hc : isWs c = false := digit_not_ws c (hdig c (by simp))
  have h1 : extract_anki_id (markerLine (c :: v')) =
      (let s2 := List.dropWhile isWs (' ' :: ((c :: v') ++ [' ', '-', '-', '>']))
       let d := List.takeWhile Char.isDigit s2
       if d.isEmpty = true then none
       else if List.dropWhile isWs (List.drop d.length s2) = "-->".toList then some d
       else none) := rfl
  rw [h1]
  have hsp : isWs ' ' = true := by decide
  have hdw : List.dropWhile isWs (' ' :: ((c :: v') ++ [' ', '-', '-', '>'])) =
      (c :: v') ++ [' ', '-', '-', '>'] := by
    rw [List.dropWhile_cons, if_pos hsp, List.cons_append, List.dropWhile_cons]
    simp [hc]
  have htx := takeWhile_all_append Char.isDigit (c :: v') [' ', '-', '-', '>'] hdig
    (fun x hx => by injection hx with hx2; subst hx2; decide)
  dsimp only
  rw [hdw, htx.1, htx.2]
  have h2 : List.dropWhile isWs [' ', '-', '-', '>'] = "-->".toList := by decide
  simp [h2]

theorem extract_heading3_shape (l : Line) (t : List Char)
    (h : extract_heading3 l = some t) :
    ∃ c rest, l = '#' :: '#' :: '#' :: c :: rest ∧ isWs c = true := by
  rw [extract_heading3.eq_def] at h
  split at h
  · split at h
    · rename_i c tail
      split_ifs at h with hw
      exact ⟨c, tail, rfl, hw⟩
    · exact Option.noConfusion h
  · exact Option.noConfusion h

theorem otruthy_some_iff (s : List Char) : otruthy (some s) = true ↔ s ≠ [] := by
  simp [otruthy]

theorem h3_line_props (l : Line) (h : otruthy (extract_heading3 l) = true) :
    extract_heading2 l = none ∧ extract_anki_id l = none ∧
    get_fence_marker l = none ∧
    (∀ c, l.head? = some c → c = '#') ∧ ('#' ∈ l) := by
  obtain ⟨t, ht⟩ : ∃ t, extract_heading3 l = some t := by
    cases hx : extract_heading3 l with
    | none => rw [hx] at h; exact absurd h (by simp [otruthy])
    | some t => exact ⟨t, rfl⟩
  obtain ⟨c, rest, rfl, hw⟩ := extract_heading3_shape l t ht
  refine ⟨rfl, rfl, rfl, ?_, by simp⟩
  · intro x hx
    injection hx with h2
    exact h2.symm

theorem fence_marker_shape (x f : Line) (h : get_fence_marker x = some f) :
    ∃ c, f.head? = some c ∧ (isWs c = true ∨ c = btk) := by
  rw [get_fence_marker] at h
  split_ifs at h with h3
  injection h with h2
  subst h2
  cases hw : x.takeWhile isWs with
  | cons a w' =>
    refine ⟨a, by simp [hw], Or.inl ?_⟩
    have : a ∈ x.takeWhile isWs := by rw [hw]; simp
    exact List.mem_takeWhile_imp this
  | nil =>
    cases hb : (x.dropWhile isWs).takeWhile (fun c => c = btk) with
    | nil => rw [hb] at h3; simp at h3
    | cons b bt' =>
      refine ⟨b, by simp, Or.inr ?_⟩
      have : b ∈ (x.dropWhile isWs).takeWhile (fun c => c = btk) := by rw [hb]; simp
      have h4 := List.mem_takeWhile_imp this
      simpa using h4

theorem fence_not_prefix_hard (f l : Line)
    (hf : ∃ c, f.head? = some c ∧ (isWs c = true ∨ c = btk))
    (hl : ∀ c, l.head? = some c → isWs c = false ∧ c ≠ btk) :
    f.isPrefixOf l = false := by
  obtain ⟨c, hc, hcw⟩ := hf
  cases f with
  | nil => exact Option.noConfusion hc
  | cons a f' =>
    have ha : a = c := by simpa using hc
    subst ha
    cases l with
    | nil => rfl
    | cons b l' =>
      have hb := hl b rfl
      have hne : (a == b) = false := by
        apply beq_eq_false_iff_ne.2
        intro hcb
        subst hcb
        rcases hcw with hws | hbt
        · rw [hb.1] at hws; exact Bool.noConfusion hws
        · exact hb.2 hbt
      simp [List.isPrefixOf, hne]

theorem strip_ne_nil (l : List Char) (c : Char) (hc : c ∈ l) (hw : isWs c = false) :
    strip l ≠ [] := by
  intro h
  rw [strip, List.reverse_eq_nil_iff, List.dropWhile_eq_nil_iff] at h
  have h3 : ∀ x ∈ l, isWs x = true := by
    intro x hx
    rw [← List.takeWhile_append_dropWhile (p := isWs) (l := l)] at hx
    rcases List.mem_append.1 hx with h4 | h4
    · exact List.mem_takeWhile_imp h4
    · exact h (x) (List.mem_reverse.2 h4)
  rw [h3 c hc] at hw
  exact Bool.noConfusion hw

theorem joinNL_mem (c : Char) : ∀ (cs : List Line) (l : Line),
    l ∈ cs → c ∈ l → c ∈ joinNL cs := by
  intro cs
  induction cs with
  | nil => intro l hl; exact absurd hl (by simp)
  | cons a cs' ih =>
    intro l hl hc
    rw [joinNL]
    rcases List.mem_cons.1 hl with rfl | hmem
    · exact List.mem_append.2 (Or.inl hc)
    · exact List.mem_append.2 (Or.inr (List.mem_cons_of_mem _ (ih l hmem hc)))

/-! ## C3: the insertion-noop algebra -/

theorem insert_go_of_find_none (t v : List Char) : ∀ (ls : List Line),
    find_heading3_position t ls = none → insert_go t v ls = ls := by
  intro ls
  induction ls with
  | nil => intro _; rfl
  | cons l rest ih =>
    intro h
    rw [find_heading3_position] at h
    split_ifs at h with h1
    rw [insert_go, if_neg h1, ih (Option.map_eq_none'.1 h)]

theorem insert_go_eq (t v : List Char) : ∀ (ls : List Line),
    insert_id_in_markdown t v ls = insert_go t v ls := by
  intro ls
  induction ls with
  | nil => rfl
  | cons l rest ih =>
    by_cases h1 : extract_heading3 l = some t
    · have hf : find_heading3_position t (l :: rest) = some 0 := by
        rw [find_heading3_position, if_pos h1]
      rw [insert_id_in_markdown, hf, insert_go, if_pos h1]
      show (if section_has_anki_id rest then l :: rest
            else (l :: rest).insertIdx 1 (markerLine v)) =
        if section_has_anki_id rest then l :: rest else l :: markerLine v :: rest
      by_cases h2 : section_has_anki_id rest
      · rw [if_pos h2, if_pos h2]
      · rw [if_neg h2, if_neg h2, List.insertIdx_succ_cons, List.insertIdx_zero]
    · cases hf : find_heading3_position t rest with
      | none =>
        have hf2 : find_heading3_position t (l :: rest) = none := by
          rw [find_heading3_position, if_neg h1, hf]
          rfl
        rw [insert_id_in_markdown, hf2, insert_go, if_neg h1,
          insert_go_of_find_none t v rest hf]
      | some j =>
        have hf2 : find_heading3_position t (l :: rest) = some (j + 1) := by
          rw [find_heading3_position, if_neg h1, hf]
          rfl
        rw [insert_id_in_markdown, hf2, insert_go, if_neg h1, ← ih,
          insert_id_in_markdown, hf]
        show (if section_has_anki_id ((l :: rest).drop (j + 1 + 1)) then l :: rest
              else (l :: rest).insertIdx (j + 1 + 1) (markerLine v)) =
          l :: (if section_has_anki_id (rest.drop (j + 1)) then rest
                else rest.insertIdx (j + 1) (markerLine v))
        have hd : (l :: rest).drop (j + 1 + 1) = rest.drop (j + 1) := rfl
        rw [hd]
        by_cases h2 : section_has_anki_id (rest.drop (j + 1))
        · rw [if_pos h2, if_pos h2]
        · rw [if_neg h2, if_neg h2, List.insertIdx_succ_cons]

theorem insert_go_of_noop (t v : List Char) : ∀ (ls : List Line),
    insert_noop t ls = true → insert_go t v ls = ls := by
  intro ls
  induction ls with
  | nil => intro _; rfl
  | cons l rest ih =>
    intro h
    rw [insert_noop] at h
    rw [insert_go]
    by_cases h1 : extract_heading3 l = some t
    · rw [if_pos h1] at h
      rw [if_pos h1, if_pos h]
    · rw [if_neg h1] at h
      rw [if_neg h1, ih h]

theorem insert_go_noop_after (t v : List Char) (hv : DigitStr v) : ∀ (ls : List Line),
    insert_noop t (insert_go t v ls) = true := by
  intro ls
  induction ls with
  | nil => rfl
  | cons l rest ih =>
    rw [insert_go]
    by_cases h1 : extract_heading3 l = some t
    · rw [if_pos h1]
      by_cases h2 : section_has_anki_id rest
      · rw [if_pos h2, insert_noop, if_pos h1]
        exact h2
      · rw [if_neg h2, insert_noop, if_pos h1]
        rw [section_has_anki_id]
        simp [markerLine_not_q, markerLine_not_h3, markerLine_not_h2, otruthy,
          markerLine_anki_id v hv]
    · rw [if_neg h1, insert_noop, if_neg h1]
      exact ih

theorem section_id_insert_go (t v : List Char) (ht : t ≠ []) : ∀ (ls : List Line),
    section_has_anki_id ls = true → section_has_anki_id (insert_go t v ls) = true := by
  intro ls
  induction ls with
  | nil => intro h; exact h
  | cons l rest ih =>
    intro h
    rw [section_has_anki_id] at h
    split_ifs at h with hstop hid
    · have h1 : extract_heading3 l ≠ some t := by
        intro hx
        apply hstop
        rw [hx]
        simp [otruthy, ht]
      rw [insert_go, if_neg h1, section_has_anki_id, if_neg hstop]
      simp [hid]
    · have h1 : extract_heading3 l ≠ some t := by
        intro hx
        apply hstop
        rw [hx]
        simp [otruthy, ht]
      rw [insert_go, if_neg h1, section_has_anki_id, if_neg hstop]
      simp [hid, ih h]

theorem insert_noop_stable (t t' v' : List Char) (ht' : t' ≠ []) : ∀ (ls : List Line),
    insert_noop t ls = true → insert_noop t (insert_go t' v' ls) = true := by
  intro ls
  induction ls with
  | nil => intro h; exact h
  | cons l rest ih =>
    intro h
    rw [insert_noop] at h
    rw [insert_go]
    by_cases h1' : extract_heading3 l = some t'
    · rw [if_pos h1']
      by_cases h2 : section_has_anki_id rest
      · rw [if_pos h2, insert_noop]
        exact h
      · rw [if_neg h2]
        rw [insert_noop]
        by_cases h1 : extract_heading3 l = some t
        · rw [if_pos h1] at h
          exact absurd h h2
        · rw [if_neg h1]
          rw [insert_noop]
          have hm : extract_heading3 (markerLine v') ≠ some t := by
            rw [markerLine_not_h3]
            simp
          rw [if_neg hm]
          rw [if_neg h1] at h
          exact h
    · rw [if_neg h1']
      rw [insert_noop]
      by_cases h1 : extract_heading3 l = some t
      · rw [if_pos h1]
        rw [if_pos h1] at h
        exact section_id_insert_go t' v' ht' rest h
      · rw [if_neg h1]
        rw [if_neg h1] at h
        exact ih h

theorem insert_noop_reconcile_go (supply : Nat → List Char) (t : List Char) :
    ∀ (cards : List PCard) (k : Nat) (ls : List Line),
      (∀ c ∈ cards, h3name c ≠ []) →
      insert_noop t ls = true →
      insert_noop t (reconcile_go supply cards k ls) = true := by
  intro cards
  induction cards with
  | nil => intro k ls _ h; exact h
  | cons c cs ih =>
    intro k ls hn h
    rw [reconcile_go]
    cases hc : c.anki_id with
    | some w =>
      refine ih _ _ (fun x hx => hn x (by simp [hx])) ?_
      rw [insert_go_eq]
      exact insert_noop_stable t (h3name c) w (hn c (by simp)) ls h
    | none =>
      refine ih _ _ (fun x hx => hn x (by simp [hx])) ?_
      rw [insert_go_eq]
      exact insert_noop_stable t (h3name c) (supply k) (hn c (by simp)) ls h

theorem reconcile_go_noop (supply : Nat → List Char) :
    ∀ (cards : List PCard) (k : Nat) (ls : List Line),
      (∀ c ∈ cards, insert_noop (h3name c) ls = true) →
      reconcile_go supply cards k ls = ls := by
  intro cards
  induction cards with
  | nil => intro k ls _; rfl
  | cons c cs ih =>
    intro k ls hn
    rw [reconcile_go]
    cases hc : c.anki_id with
    | some w =>
      dsimp only
      rw [insert_go_eq, insert_go_of_noop _ _ _ (hn c (by simp))]
      exact ih _ _ (fun x hx => hn x (by simp [hx]))
    | none =>
      dsimp only
      rw [insert_go_eq, insert_go_of_noop _ _ _ (hn c (by simp))]
      exact ih _ _ (fun x hx => hn x (by simp [hx]))

theorem reconcile_go_establishes (supply : Nat → List Char)
    (hs : ∀ k, DigitStr (supply k)) :
    ∀ (cards : List PCard) (k : Nat) (ls : List Line),
      (∀ c ∈ cards, h3name c ≠ []) →
      (∀ c ∈ cards, ∀ w, c.anki_id = some w → DigitStr w) →
      ∀ c ∈ cards, insert_noop (h3name c) (reconcile_go supply cards k ls) = true := by
  intro cards
  induction cards with
  | nil => intro k ls _ _ c hc; exact absurd hc (by simp)
  | cons c0 cs ih =>
    intro k ls hn hd c hc
    rw [reconcile_go]
    cases hc0 : c0.anki_id with
    | some w =>
      rcases List.mem_cons.1 hc with rfl | hmem
      · refine insert_noop_reconcile_go supply _ cs _ _
          (fun x hx => hn x (by simp [hx])) ?_
        rw [insert_go_eq]
        exact insert_go_noop_after _ w (hd c (by simp) w hc0) ls
      · exact ih _ _ (fun x hx => hn x (by simp [hx]))
          (fun x hx => hd x (by simp [hx])) c hmem
    | none =>
      rcases List.mem_cons.1 hc with rfl | hmem
      · refine insert_noop_reconcile_go supply _ cs _ _
          (fun x hx => hn x (by simp [hx])) ?_
        rw [insert_go_eq]
        exact insert_go_noop_after _ (supply k) (hs k) ls
      · exact ih _ _ (fun x hx => hn x (by simp [hx]))
          (fun x hx => hd x (by simp [hx])) c hmem

/-! ## C3: parser invariants and the heading-name trace -/

/-- Every card the scanning loop emits has a non-empty heading text
when it has one at all, and a non-empty all-digit anki id when it has
one — provided the pending question id in the state has that shape. -/
theorem parseLoop_card_wf (fsc : Bool) (fuel : Nat) :
    ∀ (h2 : List Char) (h3 : Option (List Char)) (h3t : Option (List Line))
      (q qid : Option (List Char)) (ls : List Line) (c : PCard),
      (∀ w, qid = some w → DigitStr w) →
      c ∈ parseLoop fsc fuel h2 h3 h3t q qid ls →
      (∀ s, c.heading3_text = some s → s ≠ []) ∧
      (∀ w, c.anki_id = some w → DigitStr w) := by
  induction fuel with
  | zero =>
    intro h2 h3 h3t q qid ls c hq hc
    simp [parseLoop] at hc
  | succ n ih =>
    intro h2 h3 h3t q qid ls c hq hc
    match ls with
    | [] => simp [parseLoop] at hc
    | l :: rest =>
      rw [parseLoop] at hc
      dsimp only at hc
      by_cases hh2 : otruthy (extract_heading2 l) = true
      · rw [if_pos hh2] at hc
        exact ih _ _ _ _ _ _ _ hq hc
      rw [if_neg hh2] at hc
      by_cases hh3 : otruthy (extract_heading3 l) = true
      · rw [if_pos hh3] at hc
        exact ih _ _ _ _ _ _ _ hq hc
      rw [if_neg hh3] at hc
      by_cases hqh : is_question_heading l = true
      · rw [if_pos hqh] at hc
        by_cases hf : fsc = true
        · rw [if_pos hf] at hc
          exact ih _ _ _ _ _ _ _ hq hc
        · rw [if_neg hf] at hc
          exact ih _ _ _ _ _ _ _ (fun w hw => ecbc_aid_digits rest w hw) hc
      rw [if_neg hqh] at hc
      by_cases hah : (is_answer_heading l && otruthy q) = true
      · rw [if_pos hah] at hc
        by_cases hqa : (otruthy q && otruthy (extract_code_block_content rest).2.1) = true
        · rw [if_pos hqa] at hc
          rcases List.mem_cons.1 hc with rfl | hmem
          · constructor
            · intro s hs
              dsimp only at hs
              split_ifs at hs with ho
              rw [hs] at ho
              exact (otruthy_some_iff s).1 ho
            · intro w hw
              dsimp only at hw
              split_ifs at hw <;>
                first
                  | exact hq w hw
                  | (cases h3t with
                     | none => exact Option.noConfusion hw
                     | some tl => exact find_anki_id_digits tl w hw)
          · exact ih _ _ _ _ _ _ _ (fun w hw => Option.noConfusion hw) hmem
        · rw [if_neg hqa] at hc
          exact ih _ _ _ _ _ _ _ hq hc
      rw [if_neg hah] at hc
      exact ih _ _ _ _ _ _ _ hq hc

/-- The cards of a parsed file have non-empty heading names and
digit-string ids. -/
theorem parse_lines_card_wf (fsc : Bool) (lines : List Line) (c : PCard)
    (hc : c ∈ parse_lines fsc lines) :
    (∀ s, c.heading3_text = some s → s ≠ []) ∧
    (∀ w, c.anki_id = some w → DigitStr w) :=
  parseLoop_card_wf fsc _ _ _ _ _ _ _ c (fun _ hw => Option.noConfusion hw) hc

theorem h3name_ne_nil (fsc : Bool) (lines : List Line) (c : PCard)
    (hc : c ∈ parse_lines fsc lines) : h3name c ≠ [] := by
  rw [h3name]
  cases hx : c.heading3_text with
  | none => simp
  | some s =>
    simp only [Option.getD_some]
    exact (parse_lines_card_wf fsc lines c hc).1 s hx

/-- The card names of the scanning loop are computed by `nameLoop`:
they depend only on the heading-3 state and the truthiness of the
pending question. -/
theorem parseLoop_names (fsc : Bool) (fuel : Nat) :
    ∀ (h2 : List Char) (h3 : Option (List Char)) (h3t : Option (List Line))
      (q qid : Option (List Char)) (ls : List Line),
      (parseLoop fsc fuel h2 h3 h3t q qid ls).map PCard.heading3_text =
        nameLoop fuel h3 (otruthy q) ls := by
  induction fuel with
  | zero => intro h2 h3 h3t q qid ls; rfl
  | succ n ih =>
    intro h2 h3 h3t q qid ls
    match ls with
    | [] => rfl
    | l :: rest =>
      rw [parseLoop, nameLoop]
      by_cases hh2 : otruthy (extract_heading2 l) = true
      · rw [if_pos hh2, if_pos hh2]
        exact ih _ _ _ _ _ _
      rw [if_neg hh2, if_neg hh2]
      by_cases hh3 : otruthy (extract_heading3 l) = true
      · rw [if_pos hh3, if_pos hh3]
        exact ih _ _ _ _ _ _
      rw [if_neg hh3, if_neg hh3]
      by_cases hqh : is_question_heading l = true
      · rw [if_pos hqh, if_pos hqh]
        by_cases hf : fsc = true
        · rw [if_pos hf]
          exact ih _ _ _ _ _ _
        · rw [if_neg hf]
          exact ih _ _ _ _ _ _
      rw [if_neg hqh, if_neg hqh]
      by_cases hah : (is_answer_heading l && otruthy q) = true
      · rw [if_pos hah, if_pos hah]
        by_cases hqa : (otruthy q && otruthy (extract_code_block_content rest).2.1) = true
        · rw [if_pos hqa, if_pos hqa]
          rw [List.map_cons]
          have hq0 : otruthy (none : Option (List Char)) = false := rfl
          rw [show (otruthy (none : Option (List Char))) = false from rfl] at *
          refine congrArg₂ _ rfl ?_
          have := ih h2 h3 h3t none none (extract_code_block_content rest).1
          simpa using this
        · rw [if_neg hqa, if_neg hqa]
          exact ih _ _ _ _ _ _
      rw [if_neg hah, if_neg hah]
      exact ih _ _ _ _ _ _

/-! ## C3: marker insertion does not disturb the card structure -/

theorem ecbcPre_seed_irrel : ∀ (ls : List Line) (s s' : Option (List Char)),
    (ecbcPre ls s).1 = (ecbcPre ls s').1 ∧ (ecbcPre ls s).2.1 = (ecbcPre ls s').2.1 := by
  intro ls
  induction ls with
  | nil => intro s s'; exact ⟨rfl, rfl⟩
  | cons l rest ih =>
    intro s s'
    rw [ecbcPre, ecbcPre]
    cases hx : extract_anki_id l with
    | some w => exact ⟨rfl, rfl⟩
    | none =>
      cases hf : get_fence_marker l with
      | some fm => exact ⟨rfl, rfl⟩
      | none => exact ih s s'

theorem ecbcPre_hd (m : Line) (Hm : NeutralLine m) (p : List Line)
    (s s' : Option (List Char)) :
    (ecbcPre (m :: p) s').1 = (ecbcPre p s).1 ∧
    (ecbcPre (m :: p) s').2.1 = (ecbcPre p s).2.1 := by
  rw [ecbcPre]
  cases hx : extract_anki_id m with
  | some w => exact ⟨(ecbcPre_seed_irrel p (some w) s).1, (ecbcPre_seed_irrel p (some w) s).2⟩
  | none =>
    rw [Hm.no_fence]
    exact ⟨(ecbcPre_seed_irrel p s' s).1, (ecbcPre_seed_irrel p s' s).2⟩

theorem ecbcPre_ins (h m : Line) (Hh : otruthy (extract_heading3 h) = true)
    (Hm : NeutralLine m) : ∀ (u p : List Line) (s s' : Option (List Char)),
    (ecbcPre (u ++ h :: p) s).2.1 = (ecbcPre (u ++ h :: m :: p) s').2.1 ∧
    ((ecbcPre (u ++ h :: p) s).1 = (ecbcPre (u ++ h :: m :: p) s').1 ∨
      ∃ u' p', (ecbcPre (u ++ h :: p) s).1 = u' ++ h :: p' ∧
        (ecbcPre (u ++ h :: m :: p) s').1 = u' ++ h :: m :: p') := by
  intro u
  induction u with
  | nil =>
    intro p s s'
    obtain ⟨_, hid, hfen, _, _⟩ := h3_line_props h Hh
    simp only [List.nil_append]
    rw [ecbcPre, ecbcPre, hid, hfen]
    have h1 := ecbcPre_hd m Hm p s s'
    exact ⟨h1.2.symm, Or.inl h1.1.symm⟩
  | cons l u' ih =>
    intro p s s'
    rw [List.cons_append, List.cons_append, ecbcPre, ecbcPre]
    cases hx : extract_anki_id l with
    | some w => exact ih p (some w) (some w)
    | none =>
      cases hf : get_fence_marker l with
      | some fm => exact ⟨rfl, Or.inr ⟨u', p, rfl, rfl⟩⟩
      | none => exact ih p s s'

theorem ecbcPre_marker_src : ∀ (ls : List Line) (s : Option (List Char)) (f : Line),
    (ecbcPre ls s).2.1 = some f → ∃ x, get_fence_marker x = some f := by
  intro ls
  induction ls with
  | nil => intro s f hf; exact Option.noConfusion hf
  | cons l rest ih =>
    intro s f hf
    rw [ecbcPre] at hf
    cases hx : extract_anki_id l with
    | some w => rw [hx] at hf; exact ih (some w) f hf
    | none =>
      rw [hx] at hf
      cases hm : get_fence_marker l with
      | some fm =>
        rw [hm] at hf
        injection hf with h2
        exact ⟨l, h2 ▸ hm⟩
      | none => rw [hm] at hf; exact ih s f hf

theorem ecbcCollect_hd (f m : Line) (hfm : f.isPrefixOf m = false) (p : List Line) :
    (ecbcCollect f (m :: p)).1 = (ecbcCollect f p).1 ∧
    (ecbcCollect f (m :: p)).2 = m :: (ecbcCollect f p).2 := by
  rw [ecbcCollect]
  simp [hfm]

theorem ecbcCollect_ins (h m f : Line) (hfh : f.isPrefixOf h = false)
    (hfm : f.isPrefixOf m = false) : ∀ (u p : List Line),
    ((ecbcCollect f (u ++ h :: p)).1 = (ecbcCollect f (u ++ h :: m :: p)).1 ∨
      ∃ u' p', (ecbcCollect f (u ++ h :: p)).1 = u' ++ h :: p' ∧
        (ecbcCollect f (u ++ h :: m :: p)).1 = u' ++ h :: m :: p') ∧
    ((ecbcCollect f (u ++ h :: m :: p)).2 = (ecbcCollect f (u ++ h :: p)).2 ∨
      ∃ c1 c2, (ecbcCollect f (u ++ h :: p)).2 = c1 ++ h :: c2 ∧
        (ecbcCollect f (u ++ h :: m :: p)).2 = c1 ++ h :: m :: c2) := by
  intro u
  induction u with
  | nil =>
    intro p
    simp only [List.nil_append]
    rw [ecbcCollect, ecbcCollect]
    simp only [hfh, Bool.false_eq_true, if_false]
    have h1 := ecbcCollect_hd f m hfm p
    refine ⟨Or.inl ?_, Or.inr ⟨[], (ecbcCollect f p).2, rfl, ?_⟩⟩
    · exact h1.1.symm
    · simp [h1.2]
  | cons l u' ih =>
    intro p
    rw [List.cons_append, List.cons_append, ecbcCollect, ecbcCollect]
    by_cases hcl : f.isPrefixOf l = true
    · simp only [hcl, if_true]
      exact ⟨Or.inr ⟨u', p, rfl, rfl⟩, Or.inl trivial⟩
    · simp only [hcl, Bool.false_eq_true, if_false]
      have h1 := ih p
      refine ⟨h1.1, ?_⟩
      rcases h1.2 with heq | ⟨c1, c2, ha, hb⟩
      · exact Or.inl (by rw [heq])
      · exact Or.inr ⟨l :: c1, c2, by rw [ha]; rfl, by rw [hb]; rfl⟩

theorem mkContent_truthy (cs : List Line) (l : Line) (hl : l ∈ cs) (c : Char)
    (hc : c ∈ l) (hw : isWs c = false) :
    otruthy (if cs.isEmpty then none else some (strip (joinNL cs))) = true := by
  have hnil : cs.isEmpty = false := by
    cases cs with
    | nil => exact absurd hl (by simp)
    | cons a cs' => rfl
  rw [hnil]
  simp only [Bool.false_eq_true, if_false, otruthy]
  have hne := strip_ne_nil (joinNL cs) c (joinNL_mem c cs l hl hc) hw
  simpa using hne

theorem ecbc_insrel (h m : Line) (Hh : otruthy (extract_heading3 h) = true)
    (Hm : NeutralLine m) : ∀ (u p : List Line),
    otruthy (extract_code_block_content (u ++ h :: p)).2.1 =
      otruthy (extract_code_block_content (u ++ h :: m :: p)).2.1 ∧
    ((extract_code_block_content (u ++ h :: p)).1 =
        (extract_code_block_content (u ++ h :: m :: p)).1 ∨
      ∃ u' p', (extract_code_block_content (u ++ h :: p)).1 = u' ++ h :: p' ∧
        (extract_code_block_content (u ++ h :: m :: p)).1 = u' ++ h :: m :: p') := by
  intro u p
  have hpre := ecbcPre_ins h m Hh Hm u p none none
  have hmEq := hpre.1
  rw [extract_code_block_content, extract_code_block_content]
  dsimp only
  cases hmk : (ecbcPre (u ++ h :: p) none).2.1 with
  | none =>
    rw [hmk] at hmEq
    rw [← hmEq]
    exact ⟨rfl, hpre.2⟩
  | some f =>
    rw [hmk] at hmEq
    rw [← hmEq]
    dsimp only
    obtain ⟨x, hx⟩ := ecbcPre_marker_src (u ++ h :: p) none f hmk
    have hfs := fence_marker_shape x f hx
    have hhard_h : ∀ c, h.head? = some c → isWs c = false ∧ c ≠ btk := by
      intro c hc
      have h4 := (h3_line_props h Hh).2.2.2.1 c hc
      subst h4
      exact ⟨by decide, by decide⟩
    have hfh : f.isPrefixOf h = false := fence_not_prefix_hard f h hfs hhard_h
    have hfm : f.isPrefixOf m = false := fence_not_prefix_hard f m hfs Hm.head_hard
    rcases hpre.2 with heq | ⟨u', p', ha, hb⟩
    · rw [← heq]
      exact ⟨rfl, Or.inl rfl⟩
    · rw [ha, hb]
      have hcol := ecbcCollect_ins h m f hfh hfm u' p'
      constructor
      · rcases hcol.2 with heq2 | ⟨c1, c2, hca, hcb⟩
        · rw [heq2]
        · rw [hca, hcb]
          have hhash : '#' ∈ h := (h3_line_props h Hh).2.2.2.2
          rw [mkContent_truthy (c1 ++ h :: c2) h (by simp) '#' hhash (by decide),
              mkContent_truthy (c1 ++ h :: m :: c2) h (by simp) '#' hhash (by decide)]
      · exact hcol.1

theorem nameLoop_insrel (h m : Line) (Hh : otruthy (extract_heading3 h) = true)
    (Hm : NeutralLine m) :
    ∀ (fb fa : Nat) (a b : List Line) (h3 : Option (List Char)) (qt : Bool),
      InsRel h m a b → a.length < fa → b.length < fb →
      nameLoop fa h3 qt a = nameLoop fb h3 qt b := by
  intro fb
  induction fb with
  | zero =>
    intro fa a b h3 qt hrel ha hb
    omega
  | succ FB ih =>
    intro fa a b h3 qt hrel ha hb
    cases hrel with
    | refl a =>
      cases a with
      | nil =>
        cases fa with
        | zero => rfl
        | succ fa' => rfl
      | cons l rest =>
        cases fa with
        | zero => omega
        | succ fa' =>
          simp only [List.length_cons] at ha hb
          have hal : rest.length < fa' := by omega
          have hbl : rest.length < FB := by omega
          have hel := ecbc_length_le rest
          rw [nameLoop, nameLoop]
          by_cases hh2 : otruthy (extract_heading2 l) = true
          · rw [if_pos hh2, if_pos hh2]
            exact ih fa' rest rest h3 qt (InsRel.refl rest) hal hbl
          rw [if_neg hh2, if_neg hh2]
          by_cases hh3 : otruthy (extract_heading3 l) = true
          · rw [if_pos hh3, if_pos hh3]
            exact ih fa' rest rest _ qt (InsRel.refl rest) hal hbl
          rw [if_neg hh3, if_neg hh3]
          by_cases hqh : is_question_heading l = true
          · rw [if_pos hqh, if_pos hqh]
            exact ih fa' _ _ h3 _ (InsRel.refl _) (by omega) (by omega)
          rw [if_neg hqh, if_neg hqh]
          by_cases hah : (is_answer_heading l && qt) = true
          · rw [if_pos hah, if_pos hah]
            by_cases hqa : (qt && otruthy (extract_code_block_content rest).2.1) = true
            · rw [if_pos hqa, if_pos hqa]
              refine congrArg₂ _ rfl ?_
              exact ih fa' _ _ h3 false (InsRel.refl _) (by omega) (by omega)
            · rw [if_neg hqa, if_neg hqa]
              exact ih fa' _ _ h3 qt (InsRel.refl _) (by omega) (by omega)
          rw [if_neg hah, if_neg hah]
          exact ih fa' rest rest h3 qt (InsRel.refl rest) hal hbl
    | ins u p =>
      cases u with
      | nil =>
        cases fa with
        | zero => omega
        | succ fa' =>
          simp only [List.nil_append, List.length_cons] at ha hb ⊢
          have hal : p.length < fa' := by omega
          have hbl : (m :: p).length < FB := by simp only [List.length_cons]; omega
          rw [nameLoop, nameLoop]
          have hh2 : otruthy (extract_heading2 h) = false := by
            rw [(h3_line_props h Hh).1]
            rfl
          have hn2 : ¬ otruthy (extract_heading2 h) = true := by simp [hh2]
          rw [if_neg hn2, if_neg hn2, if_pos Hh, if_pos Hh]
          exact ih fa' p (m :: p) _ qt (InsRel.hd p) hal hbl
      | cons l u' =>
        cases fa with
        | zero => omega
        | succ fa' =>
          simp only [List.cons_append, List.length_cons, List.length_append] at ha hb ⊢
          have hal : (u' ++ h :: p).length < fa' := by
            simp only [List.length_append, List.length_cons]
            omega
          have hbl : (u' ++ h :: m :: p).length < FB := by
            simp only [List.length_append, List.length_cons]
            omega
          have hq := ecbc_insrel h m Hh Hm u' p
          have hel1 := ecbc_length_le (u' ++ h :: p)
          have hel2 := ecbc_length_le (u' ++ h :: m :: p)
          simp only [List.length_append, List.length_cons] at hel1 hel2
          rw [nameLoop, nameLoop]
          by_cases hh2 : otruthy (extract_heading2 l) = true
          · rw [if_pos hh2, if_pos hh2]
            exact ih fa' _ _ h3 qt (InsRel.ins u' p) hal hbl
          rw [if_neg hh2, if_neg hh2]
          by_cases hh3 : otruthy (extract_heading3 l) = true
          · rw [if_pos hh3, if_pos hh3]
            exact ih fa' _ _ _ qt (InsRel.ins u' p) hal hbl
          rw [if_neg hh3, if_neg hh3]
          by_cases hqh : is_question_heading l = true
          · rw [if_pos hqh, if_pos hqh, ← hq.1]
            rcases hq.2 with heq | ⟨u2, p2, ha2, hb2⟩
            · have hlen : (extract_code_block_content (u' ++ h :: p)).1.length < fa' := by
                omega
              have hlen2 : (extract_code_block_content (u' ++ h :: m :: p)).1.length < FB := by
                omega
              rw [heq]
              exact ih fa' _ _ h3 _ (InsRel.refl _) (heq ▸ hlen) hlen2
            · rw [ha2, hb2]
              exact ih fa' _ _ h3 _ (InsRel.ins u2 p2) (ha2 ▸ (by omega)) (hb2 ▸ (by omega))
          rw [if_neg hqh, if_neg hqh]
          by_cases hah : (is_answer_heading l && qt) = true
          · rw [if_pos hah, if_pos hah, ← hq.1]
            by_cases hqa : (qt && otruthy (extract_code_block_content (u' ++ h :: p)).2.1) = true
            · rw [if_pos hqa, if_pos hqa]
              refine congrArg₂ _ rfl ?_
              rcases hq.2 with heq | ⟨u2, p2, ha2, hb2⟩
              · rw [heq]
                exact ih fa' _ _ h3 false (InsRel.refl _) (heq ▸ (by omega)) (by omega)
              · rw [ha2, hb2]
                exact ih fa' _ _ h3 false (InsRel.ins u2 p2) (ha2 ▸ (by omega)) (hb2 ▸ (by omega))
            · rw [if_neg hqa, if_neg hqa]
              rcases hq.2 with heq | ⟨u2, p2, ha2, hb2⟩
              · rw [heq]
                exact ih fa' _ _ h3 qt (InsRel.refl _) (heq ▸ (by omega)) (by omega)
              · rw [ha2, hb2]
                exact ih fa' _ _ h3 qt (InsRel.ins u2 p2) (ha2 ▸ (by omega)) (hb2 ▸ (by omega))
          rw [if_neg hah, if_neg hah]
          exact ih fa' _ _ h3 qt (InsRel.ins u' p) hal hbl
    | hd =>
      simp only [List.length_cons] at hb
      have hbl : a.length < FB := by omega
      conv_rhs => rw [nameLoop]
      have h2m : ¬ otruthy (extract_heading2 m) = true := by rw [Hm.not_h2]; simp [otruthy]
      have h3m : ¬ otruthy (extract_heading3 m) = true := by rw [Hm.not_h3]; simp [otruthy]
      have hqm : ¬ is_question_heading m = true := by rw [Hm.not_q]; simp
      have ham : ¬ (is_answer_heading m && qt) = true := by rw [Hm.not_a]; simp
      rw [if_neg h2m, if_neg h3m, if_neg hqm, if_neg ham]
      exact ih fa a a h3 qt (InsRel.refl a) ha hbl

/-! ## C3: assembly -/

theorem insert_go_split (t v : List Char) : ∀ (ls : List Line),
    insert_go t v ls = ls ∨
    ∃ u hl p, ls = u ++ hl :: p ∧
      insert_go t v ls = u ++ hl :: markerLine v :: p ∧
      extract_heading3 hl = some t := by
  intro ls
  induction ls with
  | nil => exact Or.inl rfl
  | cons l rest ih =>
    rw [insert_go]
    by_cases h1 : extract_heading3 l = some t
    · rw [if_pos h1]
      by_cases h2 : section_has_anki_id rest
      · rw [if_pos h2]
        exact Or.inl rfl
      · rw [if_neg h2]
        exact Or.inr ⟨[], l, rest, rfl, rfl, h1⟩
    · rw [if_neg h1]
      rcases ih with heq | ⟨u, hl, p, hA, hB, hH⟩
      · rw [heq]
        exact Or.inl rfl
      · exact Or.inr ⟨l :: u, hl, p, by rw [hA]; rfl, by rw [hB]; rfl, hH⟩

/-- Inserting one id marker for a non-empty heading text never changes
the sequence of heading names of the parsed cards: the marker line is
neutral for the scanning loop. -/
theorem parse_names_insert (fsc : Bool) (t v : List Char) (ht : t ≠ []) (lines : List Line) :
    (parse_lines fsc (insert_id_in_markdown t v lines)).map PCard.heading3_text =
      (parse_lines fsc lines).map PCard.heading3_text := by
  rw [insert_go_eq]
  rcases insert_go_split t v lines with heq | ⟨u, hl, p, hA, hB, hH⟩
  · rw [heq]
  · rw [parse_lines, parseLoop_names, parse_lines, parseLoop_names, hB, hA]
    have Hh : otruthy (extract_heading3 hl) = true := by
      rw [hH]
      simp [otruthy, ht]
    exact (nameLoop_insrel hl (markerLine v) Hh (markerLine_neutral v)
      ((u ++ hl :: markerLine v :: p).length + 1) ((u ++ hl :: p).length + 1)
      (u ++ hl :: p) (u ++ hl :: markerLine v :: p) none (otruthy none)
      (InsRel.ins u p) (by omega) (by omega)).symm

/-- A whole reconciliation pass never changes the sequence of heading
names of the parsed cards. -/
theorem parse_names_reconcile (fsc : Bool) (supply : Nat → List Char) :
    ∀ (cards : List PCard) (k : Nat) (ls : List Line),
      (∀ c ∈ cards, h3name c ≠ []) →
      (parse_lines fsc (reconcile_go supply cards k ls)).map PCard.heading3_text =
        (parse_lines fsc ls).map PCard.heading3_text := by
  intro cards
  induction cards with
  | nil => intro k ls _; rfl
  | cons c cs ih =>
    intro k ls hn
    rw [reconcile_go]
    cases hc : c.anki_id with
    | some w =>
      dsimp only
      rw [ih _ _ (fun x hx => hn x (by simp [hx])),
        parse_names_insert fsc (h3name c) w (hn c (by simp)) ls]
    | none =>
      dsimp only
      rw [ih _ _ (fun x hx => hn x (by simp [hx])),
        parse_names_insert fsc (h3name c) (supply k) (hn c (by simp)) ls]

/-- C3: identity reconciliation is idempotent.  Parsing a file and
writing back id markers for every card (`reconcile`), then immediately
running the same parse-and-reconcile pass again with no intervening
edits, leaves the lines of the file identical after the second pass:
the first pass leaves every card's section carrying an anki id directly
after its level-3 heading, the inserted marker lines are invisible to
the scanning loop, so every insertion of the second pass hits the
duplicate check of `insert_id_in_markdown` and is skipped.  The id
supply may even differ between the passes; the first pass's ids must be
decimal digit strings, as `str(new_id)` of an Anki note id always is. -/
theorem c3_reconcile_idempotent (supply supply2 : Nat → List Char)
    (hs : ∀ k, DigitStr (supply k)) (lines : List Line) :
    reconcile supply2 (reconcile supply lines) = reconcile supply lines := by
  rw [reconcile, reconcile]
  refine reconcile_go_noop supply2 _ 0 _ ?_
  intro c hc
  have hnames : (parse_lines false (reconcile_go supply (parse_lines false lines) 0 lines)).map
      PCard.heading3_text = (parse_lines false lines).map PCard.heading3_text :=
    parse_names_reconcile false supply (parse_lines false lines) 0 lines
      (fun x hx => h3name_ne_nil false lines x hx)
  have hmem : c.heading3_text ∈ (parse_lines false lines).map PCard.heading3_text := by
    rw [← hnames]
    exact List.mem_map.2 ⟨c, hc, rfl⟩
  rcases List.mem_map.1 hmem with ⟨c0, hc0, heq⟩
  have hh : h3name c = h3name c0 := by
    rw [h3name, h3name, heq]
  rw [hh]
  exact reconcile_go_establishes supply hs (parse_lines false lines) 0 lines
    (fun x hx => h3name_ne_nil false lines x hx)
    (fun x hx => (parse_lines_card_wf false lines x hx).2) c0 hc0

theorem c3_witness :
    (∀ k, DigitStr (supply7 k)) ∧
    reconcile supply9 (reconcile supply7 scenLines) = reconcile supply7 scenLines :=
  ⟨fun _ => show DigitStr "7".toList from ⟨by decide, by decide⟩,
   c3_reconcile_idempotent supply7 supply9
     (fun _ => show DigitStr "7".toList from ⟨by decide, by decide⟩) scenLines⟩

end Ankify
